import Mathlib

/-!
# Analytics dashboard: event ingestion and time-windowed reads

A shallow embedding of `server/server.js` (time-window matcher, the read
endpoints, the event write endpoint) and of the client helpers
`initAnalytics` and `clickWithPos` (`client/src/analytics.js`), `toCSV` and
the conversion rate (`client/src/Dashboard.jsx`), followed by the properties
proved about them.

Conventions of the embedding.

* A query-string parameter is `Option String`: `none` when the parameter is
  absent (`undefined`), `some s` when it is given.
* A JavaScript `Date` is `Option Int`: its time value in milliseconds, `none`
  for an Invalid Date (time value `NaN`).
* `Date` parsing and `Number(...)` are built-ins of the runtime, not code of
  the repository; they are taken as parameters `parse` and `toNumber`.
* The document store is a list of documents in the store's scan order.
-/

namespace AnalyticsDashboard

/-! ## JavaScript values -/

/-- A JavaScript `Date`: `some t` is a valid date with time value `t`
(milliseconds), `none` is an Invalid Date. -/
abbrev JSDate := Option Int

/-- Truthiness of a query-string value: `undefined` and the empty string are
falsy, every other string is truthy. -/
def truthy : Option String → Bool
  | none => false
  | some s => decide (s ≠ "")

/-- The expression `new Date(v)` for a truthy query-string value `v`; `parse` is
the runtime's date parser, answering `none` for an Invalid Date. -/
def newDate (parse : String → JSDate) : Option String → JSDate
  | none => none
  | some s => parse s

/-! ## Documents -/

/-- A stored `Event` document (`EventSchema`, with `timestamps: true`). -/
structure Event where
  id : Nat
  sessionId : String
  variant : String
  name : String
  meta : Option String
  x : Option Rat
  y : Option Rat
  createdAt : Int
deriving DecidableEq, Repr

/-- A stored `Feedback` document (`FeedbackSchema`, with `timestamps: true`). -/
structure Feedback where
  id : Nat
  sessionId : String
  rating : Option Rat
  text : Option String
  createdAt : Int
deriving DecidableEq, Repr

/-! ## Query objects -/

/-- The object stored under `createdAt` in a query: `{ $gte?, $lte? }`. -/
structure DateRange where
  gte : Option JSDate := none
  lte : Option JSDate := none
deriving DecidableEq, Repr

/-- A query object as the routes build it. Each field is a key the routes may
set: `createdAt` (a range object), `name` and `variant` (equality with a
string), `x` and `y` (the condition `{ $ne: null }`). An unset key is `none`
or `false`. -/
structure Query where
  createdAt : Option DateRange := none
  name : Option String := none
  variant : Option String := none
  xNeNull : Bool := false
  yNeNull : Bool := false
deriving DecidableEq, Repr

/-- Object spread `{ ...base, ...over }`: a key present in `over` replaces the
same key of `base`. -/
def Query.spread (base over : Query) : Query :=
  { createdAt := match over.createdAt with
      | some c => some c
      | none => base.createdAt
    name := match over.name with
      | some n => some n
      | none => base.name
    variant := match over.variant with
      | some v => some v
      | none => base.variant
    xNeNull := over.xNeNull || base.xNeNull
    yNeNull := over.yNeNull || base.yNeNull }

/-- The function `buildTimeMatch(from, to)` of `server.js`: the `createdAt`
object is created when one of the bounds is truthy, and each truthy bound is
stored as `new Date(bound)`. -/
def buildTimeMatch (parse : String → JSDate) (from_ to_ : Option String) : Query :=
  let m : Query := {}
  let m : Query := if truthy from_ || truthy to_ then { m with createdAt := some {} } else m
  let m : Query :=
    if truthy from_ then
      { m with createdAt := m.createdAt.map fun c => { c with gte := some (newDate parse from_) } }
    else m
  let m : Query :=
    if truthy to_ then
      { m with createdAt := m.createdAt.map fun c => { c with lte := some (newDate parse to_) } }
    else m
  m

/-! ## Matching a document against a query -/

/-- The store's test `createdAt >= bound` for a `$gte` bound, as an aggregate
stage evaluates it. An Invalid Date has no time value; the binary encoding of
the query writes it as time 0 (1970-01-01), and that is the bound the store
compares with. (A `find` with such a bound never reaches the comparison, see
`Query.hasInvalidDate`.) -/
def geBound (t : Int) : JSDate → Bool
  | some d => decide (d ≤ t)
  | none => decide (0 ≤ t)

/-- The store's test `createdAt <= bound` for a `$lte` bound; an Invalid Date
is compared as time 0, as for `geBound`. -/
def leBound (t : Int) : JSDate → Bool
  | some d => decide (t ≤ d)
  | none => decide (t ≤ 0)

/-- A range object accepts a time value when every operator it carries holds. -/
def DateRange.accepts (c : DateRange) (t : Int) : Bool :=
  (match c.gte with
    | none => true
    | some b => geBound t b) &&
  (match c.lte with
    | none => true
    | some b => leBound t b)

/-- The `createdAt` condition of a query applied to a time value: a query
without the key accepts every time value. -/
def Query.timeOk (q : Query) (t : Int) : Bool :=
  match q.createdAt with
  | none => true
  | some c => c.accepts t

/-- The conditions of a query other than `createdAt`, applied to an event. -/
def Query.restOk (q : Query) (e : Event) : Bool :=
  (match q.name with
    | none => true
    | some n => decide (e.name = n)) &&
  (match q.variant with
    | none => true
    | some v => decide (e.variant = v)) &&
  (!q.xNeNull || e.x.isSome) &&
  (!q.yNeNull || e.y.isSome)

/-- An event matches a query when it meets every condition of the query. -/
def Query.matches (q : Query) (e : Event) : Bool :=
  q.timeOk e.createdAt && q.restOk e

/-- A feedback document matches a query: the `createdAt` condition applies as
for events; a feedback document has none of the other fields, so an equality
or `$ne: null` condition on them fails. -/
def Query.matchesFeedback (q : Query) (f : Feedback) : Bool :=
  q.timeOk f.createdAt && q.name.isNone && q.variant.isNone && !q.xNeNull && !q.yNeNull

/-! ## The queries of the read routes -/

/-- The query of `GET /api/feedback`: `buildTimeMatch(from, to)`. -/
def feedbackQuery (parse : String → JSDate) (from_ to_ : Option String) : Query :=
  buildTimeMatch parse from_ to_

/-- The query of `GET /api/heatmap`:
`{ ...buildTimeMatch(from, to), x: { $ne: null }, y: { $ne: null } }`. -/
def heatmapQuery (parse : String → JSDate) (from_ to_ : Option String) : Query :=
  { buildTimeMatch parse from_ to_ with xNeNull := true, yNeNull := true }

/-- The object `matchAll` of `GET /api/stats`: `{ ...timeMatch }`, with
`name = event` when `event` is truthy. -/
def statsMatchAll (parse : String → JSDate) (from_ to_ event : Option String) : Query :=
  let timeMatch := buildTimeMatch parse from_ to_
  let matchAll : Query := Query.spread {} timeMatch
  if truthy event then { matchAll with name := event } else matchAll

/-- The object `sessionsMatch` of `GET /api/stats`:
`{ name: 'session_started', ...timeMatch }`. -/
def sessionsMatch (parse : String → JSDate) (from_ to_ : Option String) : Query :=
  Query.spread { name := some "session_started" } (buildTimeMatch parse from_ to_)

/-- The object `convMatch` of `GET /api/stats`:
`{ name: 'cta_clicked', ...timeMatch }`. -/
def convMatch (parse : String → JSDate) (from_ to_ : Option String) : Query :=
  Query.spread { name := some "cta_clicked" } (buildTimeMatch parse from_ to_)

/-- The query of `GET /api/events`: `buildTimeMatch(from, to)` with `name` and
`variant` assigned when the parameters are truthy. -/
def eventsQuery (parse : String → JSDate) (from_ to_ name variant : Option String) : Query :=
  let q := buildTimeMatch parse from_ to_
  let q : Query := if truthy name then { q with name := name } else q
  let q : Query := if truthy variant then { q with variant := variant } else q
  q

/-! ## JavaScript numbers -/

/-- A JavaScript number: a finite value (taken as an exact rational, rounding
of doubles is not modelled), one of the two infinities, or `NaN`. -/
inductive JSNum where
  | nan
  | negInf
  | fin (q : Rat)
  | posInf
deriving DecidableEq, Repr

/-- The order `a <= b` on JavaScript numbers; every comparison with `NaN` is
false. -/
def JSNum.le : JSNum → JSNum → Bool
  | .nan, _ => false
  | _, .nan => false
  | .negInf, _ => true
  | _, .posInf => true
  | .fin a, .fin b => decide (a ≤ b)
  | .fin _, .negInf => false
  | .posInf, .fin _ => false
  | .posInf, .negInf => false

/-- The built-in `Math.min(a, b)`: `NaN` when an argument is `NaN`. -/
def JSNum.min : JSNum → JSNum → JSNum
  | .nan, _ => .nan
  | _, .nan => .nan
  | .negInf, _ => .negInf
  | _, .negInf => .negInf
  | .posInf, b => b
  | a, .posInf => a
  | .fin a, .fin b => .fin (if a ≤ b then a else b)

/-- The built-in `Math.max(a, b)`: `NaN` when an argument is `NaN`. -/
def JSNum.max : JSNum → JSNum → JSNum
  | .nan, _ => .nan
  | _, .nan => .nan
  | .posInf, _ => .posInf
  | _, .posInf => .posInf
  | .negInf, b => b
  | a, .negInf => a
  | .fin a, .fin b => .fin (if a ≤ b then b else a)

/-- Truthiness of a number: `NaN` and `0` are falsy. -/
def JSNum.truthy : JSNum → Bool
  | .nan => false
  | .fin q => decide (q ≠ 0)
  | _ => true

/-- The quotient `a / b` of two finite numbers, `b` being `+0` when it is zero:
`0 / 0` is `NaN` and a non-zero numerator over zero is an infinity of its
sign. -/
def JSNum.div (a b : Rat) : JSNum :=
  if b = 0 then
    if a = 0 then .nan else if 0 < a then .posInf else .negInf
  else .fin (a / b)

/-- What `JSON.stringify` writes for a number: `NaN` and the infinities are
written as `null`. -/
def JSNum.toJSON : JSNum → Option Rat
  | .fin q => some q
  | _ => none

/-- The test that a number lies in the closed interval from 0 to 1. -/
def JSNum.inUnit (v : JSNum) : Bool :=
  JSNum.le (.fin 0) v && JSNum.le v (.fin 1)

/-! ## Stages of the store -/

/-- Order of string keys in the store: by code points, position by position. -/
def strLe (a b : String) : Prop :=
  a.data.map Char.toNat ≤ b.data.map Char.toNat

instance strLe.decidable : DecidableRel strLe := fun a b =>
  inferInstanceAs (Decidable (a.data.map Char.toNat ≤ b.data.map Char.toNat))

/-- One input document of a `$group` stage with `{ $sum: 1 }`: the group of
key `k` gains one, a key not seen before opens a new group. -/
def bump (k : String) : List (String × Nat) → List (String × Nat)
  | [] => [(k, 1)]
  | (k', n) :: rest => if k' = k then (k', n + 1) :: rest else (k', n) :: bump k rest

/-- A `$group` stage counting documents per key: one output document
`(key, count)` per distinct key. The store does not fix the order of the
groups; here they come in the order in which their keys are first met. -/
def groupCount (keys : List String) : List (String × Nat) :=
  keys.foldl (fun acc k => bump k acc) []

/-- The stage `{ $sort: { count: -1 } }`: the single sort key is the count,
descending; documents with equal counts keep the order they arrive in. -/
def sortCountDesc (groups : List (String × Nat)) : List (String × Nat) :=
  groups.insertionSort fun a b => b.2 ≤ a.2

/-- The stage `{ $sort: { _id: 1 } }`: ascending order of the group key. -/
def sortIdAsc (groups : List (String × Nat)) : List (String × Nat) :=
  groups.insertionSort fun a b => strLe a.1 b.1

/-- The cursor step `.sort({ createdAt: -1 })` on events: most recent first. -/
def sortRecent (rows : List Event) : List Event :=
  rows.insertionSort fun a b => b.createdAt ≤ a.createdAt

/-- The cursor step `.sort({ createdAt: -1 })` on feedback documents. -/
def sortRecentFeedback (rows : List Feedback) : List Feedback :=
  rows.insertionSort fun a b => b.createdAt ≤ a.createdAt

/-- The cursor step `.limit(n)` for a positive whole constant `n` (the routes
use 200 and 2000): at most `n` documents, the first ones of the sorted
rows. -/
def limitRows {α : Type} (n : Nat) (rows : List α) : List α :=
  rows.take n

/-- What the driver sends to the store for `.limit(c)` with a whole number
`c`: the pair `(limit, singleBatch)`. A positive `c` is sent as it is; a
negative `c` is sent as `limit: |c|` with `singleBatch: true`. For any other
value there is nothing to say from the source, and the answer is `none`. -/
def sentLimit : JSNum → Option (Nat × Bool)
  | .fin q =>
    if ((⌊q⌋ : Int) : Rat) = q then
      if 0 < q then some ((⌊q⌋).toNat, false)
      else if q < 0 then some ((-⌊q⌋).toNat, true)
      else none
    else none
  | _ => none

/-- The cursor step `.limit(c)` for a limit `c` computed at run time.
A whole `c ≥ 1` keeps at most `c` documents. A whole `c ≤ -1` is sent as
`limit: |c|, singleBatch: true`: the store answers with its first batch only,
at most `|c|` documents and at most `batch`, the number of documents one batch
of the store holds. For every other value (a fraction, an infinity) neither
the source nor the schema fixes what the store does; `other c` is the number
of documents it keeps then. -/
def cursorLimit {α : Type} (batch : Nat) (other : JSNum → Nat) (c : JSNum)
    (rows : List α) : List α :=
  match sentLimit c with
  | some (n, false) => rows.take n
  | some (n, true) => rows.take (min n batch)
  | none => rows.take (other c)

/-! ## The read routes -/

/-- The rows `GET /api/feedback` answers with when the store accepts the
query: `Feedback.find(q).sort({ createdAt: -1 }).limit(200)`. The answer of
the route, with the status 500 of its `catch` block, is `getFeedbackAnswer`. -/
def getFeedback (parse : String → JSDate) (from_ to_ : Option String)
    (store : List Feedback) : List Feedback :=
  limitRows 200
    (sortRecentFeedback (store.filter (feedbackQuery parse from_ to_).matchesFeedback))

/-- A heatmap point: the projection `{ x: 1, y: 1, _id: 0 }` of an event. -/
structure Point where
  x : Option Rat
  y : Option Rat
deriving DecidableEq, Repr

/-- The events the heatmap query matches in the store. -/
def heatmapMatching (parse : String → JSDate) (from_ to_ : Option String)
    (store : List Event) : List Event :=
  store.filter (heatmapQuery parse from_ to_).matches

/-- The events behind the answer of `GET /api/heatmap`:
`Event.find(q).sort({ createdAt: -1 }).limit(2000)`. -/
def heatmapRows (parse : String → JSDate) (from_ to_ : Option String)
    (store : List Event) : List Event :=
  limitRows 2000 (sortRecent (heatmapMatching parse from_ to_ store))

/-- The points `GET /api/heatmap` answers with when the store accepts the
query: the selected rows, projected on `x` and `y`. The answer of the route,
with the status 500 of its `catch` block, is `getHeatmapAnswer`. -/
def getHeatmap (parse : String → JSDate) (from_ to_ : Option String)
    (store : List Event) : List Point :=
  (heatmapRows parse from_ to_ store).map fun e => { x := e.x, y := e.y }

/-- The view `eventsByName` of `GET /api/stats`:
`$match: matchAll`, `$group` by `$name` counting, `$sort: { count: -1 }`. The
order among names of equal count is one of those the store may answer with,
see `EventsByNameOutput`. -/
def eventsByName (parse : String → JSDate) (from_ to_ event : Option String)
    (store : List Event) : List (String × Nat) :=
  sortCountDesc (groupCount
    ((store.filter (statsMatchAll parse from_ to_ event).matches).map fun e => e.name))

/-- The outputs the pipeline of `eventsByName` admits. The store fixes neither
the order in which `$group` emits its groups nor the order that
`{ $sort: { count: -1 } }` leaves among groups of equal count, so the pipeline
admits every arrangement of the groups in which the counts descend. -/
def EventsByNameOutput (parse : String → JSDate) (from_ to_ event : Option String)
    (store : List Event) (out : List (String × Nat)) : Prop :=
  out.Perm (groupCount
    ((store.filter (statsMatchAll parse from_ to_ event).matches).map fun e => e.name)) ∧
  out.Pairwise fun a b => b.2 ≤ a.2

instance EventsByNameOutput.decidable (parse : String → JSDate)
    (from_ to_ event : Option String) (store : List Event) (out : List (String × Nat)) :
    Decidable (EventsByNameOutput parse from_ to_ event store out) :=
  inferInstanceAs (Decidable (_ ∧ _))

/-- The view `sessionsByVariant` of `GET /api/stats`:
`$match: sessionsMatch`, `$group` by `$variant` counting, `$sort: { _id: 1 }`. -/
def sessionsByVariant (parse : String → JSDate) (from_ to_ : Option String)
    (store : List Event) : List (String × Nat) :=
  sortIdAsc (groupCount
    ((store.filter (sessionsMatch parse from_ to_).matches).map fun e => e.variant))

/-- The view `conversionsByVariant` of `GET /api/stats`:
`$match: convMatch`, `$group` by `$variant` counting, `$sort: { _id: 1 }`. -/
def conversionsByVariant (parse : String → JSDate) (from_ to_ : Option String)
    (store : List Event) : List (String × Nat) :=
  sortIdAsc (groupCount
    ((store.filter (convMatch parse from_ to_).matches).map fun e => e.variant))

/-- The value `max` of `GET /api/events`:
`Math.min(Number(limit) || 5000, 20000)`, where `limit` defaults to the number
`5000` when the parameter is absent. `toNumber` is the built-in `Number` on
strings. -/
def eventsMax (toNumber : String → JSNum) (limit : Option String) : JSNum :=
  let n : JSNum :=
    match limit with
    | none => .fin 5000
    | some s => toNumber s
  JSNum.min (if n.truthy then n else .fin 5000) (.fin 20000)

/-- A row of `GET /api/events`: the projection
`{ sessionId, variant, name, meta, x, y, createdAt }` without `_id`. -/
structure EventRow where
  sessionId : String
  variant : String
  name : String
  meta : Option String
  x : Option Rat
  y : Option Rat
  createdAt : Int
deriving DecidableEq, Repr

/-- The projection of an event on the fields `GET /api/events` selects. -/
def Event.toRow (e : Event) : EventRow :=
  { sessionId := e.sessionId, variant := e.variant, name := e.name, meta := e.meta,
    x := e.x, y := e.y, createdAt := e.createdAt }

/-- The rows of `GET /api/events`:
`Event.find(q).sort({ createdAt: -1 }).limit(max).select(...)`; `batch` and
`other` are the two parameters of the store that `cursorLimit` explains. -/
def getEvents (parse : String → JSDate) (toNumber : String → JSNum)
    (batch : Nat) (other : JSNum → Nat)
    (from_ to_ name variant limit : Option String) (store : List Event) : List EventRow :=
  (cursorLimit batch other (eventsMax toNumber limit)
    (sortRecent (store.filter (eventsQuery parse from_ to_ name variant).matches))).map
    Event.toRow

/-! ## The answers of the read routes -/

/-- The test that a query carries an Invalid Date as a `createdAt` bound. A
`find` casts its filter against the schema, the cast of an Invalid Date to
the `Date` path `createdAt` throws, and the `catch` block of the route answers
status 500; an `aggregate` pipeline is not cast. -/
def Query.hasInvalidDate (q : Query) : Bool :=
  match q.createdAt with
  | none => false
  | some c => decide (c.gte = some none) || decide (c.lte = some none)

/-- The answer of a read route: `res.json(body)` with status 200, or
`res.status(500).json({ error })` from the `catch` block. -/
inductive Answer (α : Type) where
  | ok (body : α)
  | error (status : Nat)
deriving DecidableEq, Repr

/-- The answer of a route that reads with `find(q)`: status 500 when the cast
of `q` throws, otherwise the rows. -/
def findAnswer {α : Type} (q : Query) (rows : α) : Answer α :=
  if q.hasInvalidDate then .error 500 else .ok rows

/-- The answer of `GET /api/feedback`. -/
def getFeedbackAnswer (parse : String → JSDate) (from_ to_ : Option String)
    (store : List Feedback) : Answer (List Feedback) :=
  findAnswer (feedbackQuery parse from_ to_) (getFeedback parse from_ to_ store)

/-- The answer of `GET /api/heatmap`. -/
def getHeatmapAnswer (parse : String → JSDate) (from_ to_ : Option String)
    (store : List Event) : Answer (List Point) :=
  findAnswer (heatmapQuery parse from_ to_) (getHeatmap parse from_ to_ store)

/-- The body of the answer of `GET /api/stats`. -/
structure StatsBody where
  eventsByName : List (String × Nat)
  sessionsByVariant : List (String × Nat)
  conversionsByVariant : List (String × Nat)
deriving DecidableEq, Repr

/-- The answer of `GET /api/stats`: the three aggregate views; the pipelines
are sent as they are built, so the route answers with status 200 also for a
bound that is an Invalid Date. -/
def getStatsAnswer (parse : String → JSDate) (from_ to_ event : Option String)
    (store : List Event) : Answer StatsBody :=
  .ok { eventsByName := eventsByName parse from_ to_ event store
        sessionsByVariant := sessionsByVariant parse from_ to_ store
        conversionsByVariant := conversionsByVariant parse from_ to_ store }

/-- The answer of `GET /api/events`. -/
def getEventsAnswer (parse : String → JSDate) (toNumber : String → JSNum)
    (batch : Nat) (other : JSNum → Nat)
    (from_ to_ name variant limit : Option String) (store : List Event) :
    Answer (List EventRow) :=
  findAnswer (eventsQuery parse from_ to_ name variant)
    (getEvents parse toNumber batch other from_ to_ name variant limit store)

/-- The window as the specification words it: a time value is inside when
(`from` is absent or empty, or the time is at or after `new Date(from)`) and
(`to` is absent or empty, or the time is at or before `new Date(to)`). -/
def inWindow (parse : String → JSDate) (from_ to_ : Option String) (t : Int) : Bool :=
  (!truthy from_ || geBound t (newDate parse from_)) &&
  (!truthy to_ || leBound t (newDate parse to_))

/-! ## The write route `POST /api/event` -/

/-- The fields the route destructures from `req.body`; `none` is an absent
key. -/
structure EventBody where
  sessionId : Option String
  variant : Option String
  name : Option String
  meta : Option String
  x : Option Rat
  y : Option Rat
deriving DecidableEq, Repr

/-- The event collection: the stored documents in insertion order and the next
identifier the store hands out. -/
structure Store where
  events : List Event
  nextId : Nat
deriving DecidableEq, Repr

/-- An HTTP answer of the write route: `{ ok: true, id }` with status 200, or
`{ error }` with an error status. -/
inductive Response where
  | ok (id : Nat)
  | error (status : Nat) (message : String)
deriving DecidableEq, Repr

/-- The HTTP status of an answer. -/
def Response.status : Response → Nat
  | .ok _ => 200
  | .error st _ => st

/-- The call `Event.create({ sessionId, variant, name, meta, x, y })` under
`EventSchema`: `variant` has `enum: ['A', 'B']` and `default: 'A'`, so an
absent variant is stored as `A` and any other string is refused with a
validation error; an accepted document receives a fresh identifier and the
creation time `now`. -/
def createEvent (now : Int) (body : EventBody) (st : Store) : Except String (Event × Store) :=
  let variant? : Option String :=
    match body.variant with
    | none => some "A"
    | some v => if v = "A" ∨ v = "B" then some v else none
  match variant? with
  | none => .error "Event validation failed: variant is not a valid enum value"
  | some v =>
    let doc : Event :=
      { id := st.nextId, sessionId := body.sessionId.getD "", variant := v,
        name := body.name.getD "", meta := body.meta, x := body.x, y := body.y,
        createdAt := now }
    .ok (doc, { events := st.events ++ [doc], nextId := st.nextId + 1 })

/-- The handler of `POST /api/event`: status 400 when `!sessionId || !name`,
otherwise `Event.create`, answering the new identifier, or status 500 with the
message of the error `Event.create` throws. -/
def postEvent (now : Int) (body : EventBody) (st : Store) : Response × Store :=
  if !truthy body.sessionId || !truthy body.name then
    (.error 400 "sessionId and name required", st)
  else
    match createEvent now body st with
    | .ok (doc, st') => (.ok doc.id, st')
    | .error msg => (.error 500 msg, st)

/-! ## The client: `clickWithPos` -/

/-- The rectangle `getBoundingClientRect()` reports for the container. -/
structure Rect where
  left : Rat
  top : Rat
  width : Rat
  height : Rat
deriving DecidableEq, Repr

/-- The pointer position of a click event. -/
structure PointerEvt where
  clientX : Rat
  clientY : Rat
deriving DecidableEq, Repr

/-- The module state of `analytics.js`; `containerEl` is given by the rectangle
the stored element reports, `none` when no element was found. -/
structure ClientState where
  sessionId : Option String
  variant : String
  containerEl : Option Rect
deriving DecidableEq, Repr

/-- The object handed to `postJSON('/api/event', ...)`. -/
structure EventPayload where
  sessionId : Option String
  variant : String
  name : String
  meta : String
  x : Option JSNum
  y : Option JSNum
deriving DecidableEq, Repr

/-- The function `track(name, meta)`: the payload carries no position. -/
def track (st : ClientState) (name meta : String) : EventPayload :=
  { sessionId := st.sessionId, variant := st.variant, name := name, meta := meta,
    x := none, y := none }

/-- The function `clickWithPos(name, evt, meta)`: without a container it is
`track`; with one, `x` and `y` are the pointer offsets divided by the size of
the rectangle, passed through `Math.max(0, Math.min(1, ...))`. -/
def clickWithPos (st : ClientState) (name : String) (evt : PointerEvt) (meta : String) :
    EventPayload :=
  match st.containerEl with
  | none => track st name meta
  | some rect =>
    let x := JSNum.div (evt.clientX - rect.left) rect.width
    let y := JSNum.div (evt.clientY - rect.top) rect.height
    { sessionId := st.sessionId, variant := st.variant, name := name, meta := meta,
      x := some (JSNum.max (.fin 0) (JSNum.min (.fin 1) x)),
      y := some (JSNum.max (.fin 0) (JSNum.min (.fin 1) y)) }

/-- The coordinate as it travels in the request body: `JSON.stringify` of the
payload writes `null` for `NaN`. -/
def sentCoord (v : Option JSNum) : Option Rat :=
  v.bind JSNum.toJSON

/-! ## The client: `toCSV` -/

/-- The double quote character. -/
def dquote : Char := Char.ofNat 34

/-- The comma character. -/
def comma : Char := Char.ofNat 44

/-- The line feed character. -/
def newline : Char := Char.ofNat 10

/-- The test `/[",\n]/.test(s)`. -/
def needsQuote (s : List Char) : Bool :=
  s.any fun c => c = dquote || c = comma || c = newline

/-- The replacement `s.replace(/"/g, '""')`: every double quote is doubled. -/
def doubleQuotes : List Char → List Char
  | [] => []
  | c :: cs => if c = dquote then dquote :: dquote :: doubleQuotes cs else c :: doubleQuotes cs

/-- The last line of `esc` on the text of a value. -/
def escText (s : List Char) : List Char :=
  if needsQuote s then dquote :: (doubleQuotes s ++ [dquote]) else s

/-- A cell value `r[h]`: `null` or `undefined`, an object (given by its
`JSON.stringify` text), or any other value (given by its `String(v)` text). -/
inductive Cell where
  | null
  | object (json : String)
  | value (text : String)
deriving DecidableEq, Repr

/-- The helper `esc` of `toCSV`. -/
def esc : Cell → String
  | .null => ""
  | .object json => String.mk (escText json.data)
  | .value text => String.mk (escText text.data)

/-- The method `join(sep)` of an array of strings. -/
def joinWith (sep : Char) : List String → String
  | [] => ""
  | [s] => s
  | s :: t :: rest => String.mk (s.data ++ sep :: (joinWith sep (t :: rest)).data)

/-- The function `toCSV(rows, headers)`: the header line, then one line per
row with the escaped cells of the row in header order, joined by line feeds. -/
def toCSV (rows : List (String → Cell)) (headers : List String) : String :=
  joinWith newline
    (joinWith comma headers :: rows.map fun r => joinWith comma (headers.map fun h => esc (r h)))

/-- The carriage return character. -/
def carriageReturn : Char := Char.ofNat 13

/-- The states of a comma-separated reader: at the start of a field, inside
an unquoted field, inside a quoted field, just after a double quote met
inside a quoted field, and just after a carriage return that ended a
record. -/
inductive ReadState where
  | fieldStart
  | unquoted
  | quoted
  | quoteSeen
  | afterCR
deriving DecidableEq, Repr

/-- Modelled from the spec: the standard comma-separated reader that the
round-trip property of the export format speaks of (the repository holds no
reader). It follows the grammar of RFC 4180: fields are separated by commas,
a field that starts with a double quote runs to the closing quote with
doubled quotes standing for one, and outside quotes a record ends at a line
break, which is a carriage return followed by a line feed, a lone line feed
or a lone carriage return, as the usual readers take it. The arguments are
the state, the characters of the current field, the fields of the current
record and the records read so far. -/
def readAux : ReadState → List Char → List String → List (List String) → List Char →
    List (List String)
  | _, f, r, rs, [] => rs ++ [r ++ [String.mk f]]
  | .fieldStart, f, r, rs, c :: cs =>
    if c = dquote then readAux .quoted f r rs cs
    else if c = comma then readAux .fieldStart [] (r ++ [String.mk f]) rs cs
    else if c = newline then readAux .fieldStart [] [] (rs ++ [r ++ [String.mk f]]) cs
    else if c = carriageReturn then readAux .afterCR [] [] (rs ++ [r ++ [String.mk f]]) cs
    else readAux .unquoted (f ++ [c]) r rs cs
  | .unquoted, f, r, rs, c :: cs =>
    if c = comma then readAux .fieldStart [] (r ++ [String.mk f]) rs cs
    else if c = newline then readAux .fieldStart [] [] (rs ++ [r ++ [String.mk f]]) cs
    else if c = carriageReturn then readAux .afterCR [] [] (rs ++ [r ++ [String.mk f]]) cs
    else readAux .unquoted (f ++ [c]) r rs cs
  | .quoted, f, r, rs, c :: cs =>
    if c = dquote then readAux .quoteSeen f r rs cs
    else readAux .quoted (f ++ [c]) r rs cs
  | .quoteSeen, f, r, rs, c :: cs =>
    if c = dquote then readAux .quoted (f ++ [dquote]) r rs cs
    else if c = comma then readAux .fieldStart [] (r ++ [String.mk f]) rs cs
    else if c = newline then readAux .fieldStart [] [] (rs ++ [r ++ [String.mk f]]) cs
    else if c = carriageReturn then readAux .afterCR [] [] (rs ++ [r ++ [String.mk f]]) cs
    else readAux .unquoted (f ++ [c]) r rs cs
  | .afterCR, f, r, rs, c :: cs =>
    if c = newline then readAux .fieldStart f r rs cs
    else if c = dquote then readAux .quoted f r rs cs
    else if c = comma then readAux .fieldStart [] (r ++ [String.mk f]) rs cs
    else if c = carriageReturn then readAux .afterCR [] [] (rs ++ [r ++ [String.mk f]]) cs
    else readAux .unquoted (f ++ [c]) r rs cs

/-- The records a comma-separated reader finds in a text. -/
def readCSV (text : String) : List (List String) :=
  readAux .fieldStart [] [] [] text.data

/-- The test that a text is written without quotes although it holds a
carriage return: it holds one, and no comma, double quote or line feed. -/
def bareCR (s : List Char) : Bool :=
  !needsQuote s && s.any fun c => c = carriageReturn

/-! ## The client: `initAnalytics` -/

/-- The two slots of `localStorage` that `analytics.js` reads and writes;
`none` is what `getItem` answers for a key that is not stored. -/
structure Storage where
  sessionId : Option String
  abVariant : Option String
deriving DecidableEq, Repr

/-- The string `([1e7]+-1e3+-4e3+-8e3+-1e11)` of `uuid`. -/
def uuidTemplate : String := "10000000-1000-4000-8000-100000000000"

/-- The callback of `replace(/[018]/g, ...)` in `uuid`: for the digit `c` and
the random byte `r` it is `(c ^ r & 15 >> c / 4).toString(16)`, which reads
`c ^ (r & (15 >> (c / 4)))`; the shift count `c / 4` is truncated to an
integer by `>>`. -/
def uuidDigit (c r : Nat) : List Char :=
  Nat.toDigits 16 (c ^^^ (r &&& (15 >>> (c / 4))))

/-- The body of `uuid` on the characters of the template: each `0`, `1` or
`8` is replaced through the callback with a fresh random byte, every other
character is kept. `rand i` is the `i`-th byte `crypto.getRandomValues`
hands out. -/
def uuidChars (rand : Nat → Nat) : Nat → List Char → List Char
  | _, [] => []
  | i, c :: cs =>
    if c = '0' ∨ c = '1' ∨ c = '8' then
      uuidDigit (c.toNat - 48) (rand i % 256) ++ uuidChars rand (i + 1) cs
    else c :: uuidChars rand i cs

/-- The function `uuid()` of `analytics.js`. -/
def uuid (rand : Nat → Nat) : String :=
  String.mk (uuidChars rand 0 uuidTemplate.data)

/-- What one call of `initAnalytics` draws from its surroundings: the random
bytes for `uuid`, the value of `Math.random()`, and the rectangle of the
element `document.querySelector(containerSelector)` finds, if any. -/
structure InitInput where
  rand : Nat → Nat
  random : Rat
  container : Option Rect

/-- A client context: the persistent storage, the module state of
`analytics.js`, and the event payloads posted to `/api/event` so far. -/
structure Client where
  storage : Storage
  state : ClientState
  sent : List EventPayload

/-- The module state of `analytics.js` when the module is loaded. -/
def initialState : ClientState :=
  { sessionId := none, variant := "A", containerEl := none }

/-- The function `initAnalytics({ containerSelector })`: the session
identifier and the variant are read from storage, and generated and stored
when the stored value is falsy; both go to the module state; then
`track('session_started')` posts an event; then the container is looked
up. -/
def initAnalytics (inp : InitInput) (c : Client) : Client :=
  let sid : String :=
    if truthy c.storage.sessionId then c.storage.sessionId.getD "" else uuid inp.rand
  let storage : Storage :=
    if truthy c.storage.sessionId then c.storage
    else { c.storage with sessionId := some sid }
  let state : ClientState := { c.state with sessionId := some sid }
  let v : String :=
    if truthy storage.abVariant then storage.abVariant.getD ""
    else if inp.random < 1 / 2 then "A" else "B"
  let storage : Storage :=
    if truthy storage.abVariant then storage
    else { storage with abVariant := some v }
  let state : ClientState := { state with variant := v }
  let sent := c.sent ++ [track state "session_started" "\x7b\x7d"]
  let state : ClientState := { state with containerEl := inp.container }
  { storage := storage, state := state, sent := sent }

/-- A sequence of `initAnalytics` calls in one client context, one per entry
of `inps`, in order. -/
def runInits (inps : List InitInput) (c : Client) : Client :=
  inps.foldl (fun acc inp => initAnalytics inp acc) c

/-- A client context before any call: empty storage, the module state as
loaded, nothing posted. -/
def freshClient : Client :=
  { storage := { sessionId := none, abVariant := none }, state := initialState, sent := [] }

/-- An input for examples: every random byte is 0, `Math.random()` is 1/4 and
no container is found. -/
def sampleInput : InitInput :=
  { rand := fun _ => 0, random := 1 / 4, container := none }

/-! ## The dashboard: conversion rate -/

/-- A finite non-negative double given by a mantissa and an exponent: the
number `m * 2 ^ e`. -/
structure Dyadic where
  m : Nat
  e : Int
deriving DecidableEq, Repr

/-- The rational value of a finite double. -/
def Dyadic.toRat (x : Dyadic) : Rat :=
  (x.m : Rat) * (2 : Rat) ^ x.e

/-- The number of binary digits of `x`, found by halving; `fuel` bounds the
number of halvings and `x` itself is always enough. -/
def bitLength : Nat → Nat → Nat
  | 0, _ => 0
  | fuel + 1, x => if x = 0 then 0 else bitLength fuel (x / 2) + 1

/-- The double nearest to the quotient `n / d` of two natural numbers
(`d` not zero): the quotient is scaled by a power of two so that its integer
part has 53 binary digits, and rounded to the nearest integer, a tie going to
the even one. This is the rounding of IEEE 754 binary64 arithmetic, without
its bounds on the exponent. -/
def roundDouble (n d : Nat) : Dyadic :=
  if n = 0 then { m := 0, e := 0 } else
  let k : Int := (bitLength n n : Int) - (bitLength d d : Int) - 52
  let num (e : Int) : Nat := n * 2 ^ (-e).toNat
  let den (e : Int) : Nat := d * 2 ^ e.toNat
  let e : Int := if num k / den k < 2 ^ 52 then k - 1 else k
  let q := num e / den e
  let r := num e % den e
  let m := if den e < 2 * r ∨ (2 * r = den e ∧ q % 2 = 1) then q + 1 else q
  { m := m, e := e }

/-- The rounded quotient of two finite doubles, the divisor not zero. -/
def Dyadic.div (a b : Dyadic) : Dyadic :=
  let q := roundDouble a.m b.m
  { m := q.m, e := q.e + a.e - b.e }

/-- The rounded product of two finite doubles. -/
def Dyadic.mul (a b : Dyadic) : Dyadic :=
  let q := roundDouble (a.m * b.m) 1
  { m := q.m, e := q.e + a.e + b.e }

/-- A non-negative JavaScript number as the dashboard computes with it: a
finite double, `Infinity` or `NaN`. -/
inductive JSDouble where
  | nan
  | posInf
  | fin (x : Dyadic)
deriving DecidableEq, Repr

/-- The double that holds a count: the count itself, rounded when it has
more than 53 binary digits. -/
def JSDouble.ofNat (n : Nat) : JSDouble :=
  .fin (roundDouble n 1)

/-- Truthiness of a number: `NaN` and zero are falsy. -/
def JSDouble.truthy : JSDouble → Bool
  | .nan => false
  | .posInf => true
  | .fin x => decide (x.m ≠ 0)

/-- The quotient `a / b` of JavaScript numbers: `0 / 0` is `NaN`, a non-zero
number over zero is `Infinity`, and a finite quotient is rounded. -/
def JSDouble.div : JSDouble → JSDouble → JSDouble
  | .nan, _ => .nan
  | _, .nan => .nan
  | .posInf, .posInf => .nan
  | .posInf, .fin _ => .posInf
  | .fin _, .posInf => .fin { m := 0, e := 0 }
  | .fin a, .fin b =>
    if b.m = 0 then (if a.m = 0 then .nan else .posInf) else .fin (Dyadic.div a b)

/-- The product `a * b` of JavaScript numbers: `Infinity * 0` is `NaN`, and a
finite product is rounded. -/
def JSDouble.mul : JSDouble → JSDouble → JSDouble
  | .nan, _ => .nan
  | _, .nan => .nan
  | .posInf, .posInf => .posInf
  | .posInf, .fin b => if b.m = 0 then .nan else .posInf
  | .fin a, .posInf => if a.m = 0 then .nan else .posInf
  | .fin a, .fin b => .fin (Dyadic.mul a b)

/-- The rational value of a JavaScript number, when it is finite. -/
def JSDouble.value : JSDouble → Option Rat
  | .fin x => some x.toRat
  | _ => none

/-- The answer of `GET /api/stats` as the dashboard holds it. -/
structure Stats where
  eventsByName : List (String × Nat)
  sessionsByVariant : List (String × Nat)
  conversionsByVariant : List (String × Nat)
deriving DecidableEq, Repr

/-- The expression `view.find(x => x._id === v)?.count || 0`: the count of the
first entry of variant `v`, and 0 when there is none. -/
def variantCount (view : List (String × Nat)) (v : String) : Nat :=
  match view.find? fun x => decide (x.1 = v) with
  | some x => x.2
  | none => 0

/-- The expression `sessions ? (conversions / sessions) * 100 : 0` of the
dashboard (`aRate`, `bRate`), in double arithmetic. -/
def conversionRate (sessions conversions : Nat) : JSDouble :=
  if (JSDouble.ofNat sessions).truthy then
    JSDouble.mul (JSDouble.div (JSDouble.ofNat conversions) (JSDouble.ofNat sessions))
      (JSDouble.ofNat 100)
  else JSDouble.ofNat 0

/-- The value `aRate` of the dashboard; `stats` is `none` until the answer of
`GET /api/stats` has arrived. -/
def aRate (stats : Option Stats) : JSDouble :=
  match stats with
  | none => conversionRate 0 0
  | some s => conversionRate (variantCount s.sessionsByVariant "A")
      (variantCount s.conversionsByVariant "A")

/-- The value `bRate` of the dashboard. -/
def bRate (stats : Option Stats) : JSDouble :=
  match stats with
  | none => conversionRate 0 0
  | some s => conversionRate (variantCount s.sessionsByVariant "B")
      (variantCount s.conversionsByVariant "B")

/-! ## Sample stores -/

/-- An event with the given identifier, name, variant and creation time, and
no position. -/
def sampleEvent (id : Nat) (name variant : String) (createdAt : Int) : Event :=
  { id := id, sessionId := "s", variant := variant, name := name, meta := none,
    x := none, y := none, createdAt := createdAt }

/-- The store of scenario A: 10 `session_started` of variant A, 6 of variant
B, 4 `cta_clicked` of variant A and 3 of variant B (here the B sessions are
stored first). -/
def scenarioA : List Event :=
  (List.range 6).map (fun i => sampleEvent i "session_started" "B" i) ++
  (List.range 4).map (fun i => sampleEvent (6 + i) "cta_clicked" "A" (6 + i)) ++
  (List.range 10).map (fun i => sampleEvent (10 + i) "session_started" "A" (10 + i)) ++
  (List.range 3).map (fun i => sampleEvent (20 + i) "cta_clicked" "B" (20 + i))

/-- The strict order of string keys in the store. -/
def strLt (a b : String) : Prop :=
  strLe a b ∧ a ≠ b

instance strLt.decidable : DecidableRel strLt := fun a b =>
  inferInstanceAs (Decidable (strLe a b ∧ a ≠ b))

/-- A store of `n` click events, each with a position, created at the times
`0, 1, ..., n - 1`. -/
def pointStore (n : Nat) : List Event :=
  (List.range n).map fun i =>
    { id := i, sessionId := "s", variant := "A", name := "page_click", meta := none,
      x := some (1 / 2), y := some (1 / 2), createdAt := i }

/-- A date parser for examples: it reads `t1000` as the time 1000 and `t2000`
as the time 2000, and rejects every other string. -/
def sampleParse (s : String) : JSDate :=
  if s = "t1000" then some 1000 else if s = "t2000" then some 2000 else none

/-- A number reader for examples: it reads `-30000` as the number -30000 and
answers `NaN` for every other string. -/
def sampleNumber (s : String) : JSNum :=
  if s = "-30000" then .fin (-30000) else .nan

/-! # Properties -/

/-! ## The time-window matcher -/

/-- The matcher in closed form: the `createdAt` object exists when a bound is
truthy and carries exactly the truthy bounds. -/
theorem buildTimeMatch_eq (parse : String → JSDate) (from_ to_ : Option String) :
    buildTimeMatch parse from_ to_ =
      { createdAt :=
          if truthy from_ || truthy to_ then
            some { gte := if truthy from_ then some (newDate parse from_) else none
                   lte := if truthy to_ then some (newDate parse to_) else none }
          else none } := by
  unfold buildTimeMatch
  cases hf : truthy from_ <;> cases ht : truthy to_ <;> simp

/-- The matcher sets no key other than `createdAt`. -/
theorem buildTimeMatch_restOk (parse : String → JSDate) (from_ to_ : Option String) (e : Event) :
    (buildTimeMatch parse from_ to_).restOk e = true := by
  rw [buildTimeMatch_eq]
  simp [Query.restOk]

/-- A bound that is absent is falsy. -/
theorem truthy_none : truthy none = false := rfl

/-- A given bound is truthy exactly when it is not the empty string. -/
theorem truthy_some (s : String) : truthy (some s) = true ↔ s ≠ "" := by
  simp [truthy]

/-- C1: with each bound absent or a valid timestamp (a non-empty string the
date parser accepts), the matcher of `buildTimeMatch(from, to)` accepts an
event iff (`from` is absent or `createdAt >= from`) and (`to` is absent or
`createdAt <= to`), both ends inclusive; the same holds for a feedback
document; with both bounds absent every record is accepted. -/
theorem buildTimeMatch_accepts_iff (parse : String → JSDate) (from_ to_ : Option String)
    (hfrom : from_ = none ∨ ∃ s d, from_ = some s ∧ s ≠ "" ∧ parse s = some d)
    (hto : to_ = none ∨ ∃ s d, to_ = some s ∧ s ≠ "" ∧ parse s = some d) :
    (∀ e : Event, (buildTimeMatch parse from_ to_).matches e = true ↔
      ((from_ = none ∨ ∃ s d, from_ = some s ∧ parse s = some d ∧ d ≤ e.createdAt) ∧
       (to_ = none ∨ ∃ s d, to_ = some s ∧ parse s = some d ∧ e.createdAt ≤ d))) ∧
    (∀ f : Feedback, (buildTimeMatch parse from_ to_).matchesFeedback f = true ↔
      ((from_ = none ∨ ∃ s d, from_ = some s ∧ parse s = some d ∧ d ≤ f.createdAt) ∧
       (to_ = none ∨ ∃ s d, to_ = some s ∧ parse s = some d ∧ f.createdAt ≤ d))) ∧
    (from_ = none → to_ = none →
      (∀ e : Event, (buildTimeMatch parse from_ to_).matches e = true) ∧
      (∀ f : Feedback, (buildTimeMatch parse from_ to_).matchesFeedback f = true)) := by
  have key : ∀ t : Int, (buildTimeMatch parse from_ to_).timeOk t = true ↔
      ((from_ = none ∨ ∃ s d, from_ = some s ∧ parse s = some d ∧ d ≤ t) ∧
       (to_ = none ∨ ∃ s d, to_ = some s ∧ parse s = some d ∧ t ≤ d)) := by
    intro t
    rw [buildTimeMatch_eq]
    rcases hfrom with rfl | ⟨s, d, rfl, hs, hd⟩ <;> rcases hto with rfl | ⟨s', d', rfl, hs', hd'⟩
    · simp [truthy, Query.timeOk]
    · simp [truthy, Query.timeOk, DateRange.accepts, newDate, geBound, leBound, hs', hd']
    · simp [truthy, Query.timeOk, DateRange.accepts, newDate, geBound, leBound, hs, hd]
    · simp [truthy, Query.timeOk, DateRange.accepts, newDate, geBound, leBound, hs, hd, hs', hd']
  have hrest : ∀ f : Feedback, (buildTimeMatch parse from_ to_).matchesFeedback f =
      (buildTimeMatch parse from_ to_).timeOk f.createdAt := by
    intro f
    rw [buildTimeMatch_eq]
    simp [Query.matchesFeedback]
  refine ⟨?_, ?_, ?_⟩
  · intro e
    rw [← key e.createdAt]
    simp [Query.matches, buildTimeMatch_restOk]
  · intro f
    rw [← key f.createdAt, hrest]
  · intro h1 h2
    subst h1 h2
    refine ⟨fun e => ?_, fun f => ?_⟩
    · have h := (key e.createdAt).2 ⟨Or.inl rfl, Or.inl rfl⟩
      simp [Query.matches, buildTimeMatch_restOk, h]
    · rw [hrest]
      exact (key f.createdAt).2 ⟨Or.inl rfl, Or.inl rfl⟩

/-- C1, at a concrete window: with `from` read as 1000 and `to` read as 2000,
the events created at 1000 and at 2000, the two ends of the window, are
accepted. -/
theorem buildTimeMatch_accepts_iff_witness :
    (buildTimeMatch sampleParse (some "t1000") (some "t2000")).matches
      (sampleEvent 0 "page_click" "A" 1000) = true ∧
    (buildTimeMatch sampleParse (some "t1000") (some "t2000")).matches
      (sampleEvent 1 "page_click" "A" 2000) = true :=
  ⟨((buildTimeMatch_accepts_iff sampleParse (some "t1000") (some "t2000")
      (Or.inr ⟨"t1000", 1000, rfl, by decide, by decide⟩)
      (Or.inr ⟨"t2000", 2000, rfl, by decide, by decide⟩)).1
        (sampleEvent 0 "page_click" "A" 1000)).2
      ⟨Or.inr ⟨"t1000", 1000, rfl, by decide, by decide⟩,
       Or.inr ⟨"t2000", 2000, rfl, by decide, by decide⟩⟩,
   ((buildTimeMatch_accepts_iff sampleParse (some "t1000") (some "t2000")
      (Or.inr ⟨"t1000", 1000, rfl, by decide, by decide⟩)
      (Or.inr ⟨"t2000", 2000, rfl, by decide, by decide⟩)).1
        (sampleEvent 1 "page_click" "A" 2000)).2
      ⟨Or.inr ⟨"t1000", 1000, rfl, by decide, by decide⟩,
       Or.inr ⟨"t2000", 2000, rfl, by decide, by decide⟩⟩⟩

/-! ## One window for every read path -/

/-- The `createdAt` key of the heatmap query is the one of the matcher. -/
theorem heatmapQuery_createdAt (parse : String → JSDate) (from_ to_ : Option String) :
    (heatmapQuery parse from_ to_).createdAt = (buildTimeMatch parse from_ to_).createdAt := rfl

/-- The `createdAt` key of `matchAll` is the one of the matcher. -/
theorem statsMatchAll_createdAt (parse : String → JSDate) (from_ to_ event : Option String) :
    (statsMatchAll parse from_ to_ event).createdAt = (buildTimeMatch parse from_ to_).createdAt := by
  unfold statsMatchAll
  cases h : (buildTimeMatch parse from_ to_).createdAt <;>
    cases he : truthy event <;> simp [Query.spread, h]

/-- The `createdAt` key of `sessionsMatch` is the one of the matcher. -/
theorem sessionsMatch_createdAt (parse : String → JSDate) (from_ to_ : Option String) :
    (sessionsMatch parse from_ to_).createdAt = (buildTimeMatch parse from_ to_).createdAt := by
  unfold sessionsMatch
  cases h : (buildTimeMatch parse from_ to_).createdAt <;> simp [Query.spread, h]

/-- The `createdAt` key of `convMatch` is the one of the matcher. -/
theorem convMatch_createdAt (parse : String → JSDate) (from_ to_ : Option String) :
    (convMatch parse from_ to_).createdAt = (buildTimeMatch parse from_ to_).createdAt := by
  unfold convMatch
  cases h : (buildTimeMatch parse from_ to_).createdAt <;> simp [Query.spread, h]

/-- The `createdAt` key of the raw-events query is the one of the matcher. -/
theorem eventsQuery_createdAt (parse : String → JSDate)
    (from_ to_ name variant : Option String) :
    (eventsQuery parse from_ to_ name variant).createdAt =
      (buildTimeMatch parse from_ to_).createdAt := by
  unfold eventsQuery
  cases hn : truthy name <;> cases hv : truthy variant <;> simp

/-- Two queries with the same `createdAt` key treat every time value alike. -/
theorem timeOk_congr {q q' : Query} (h : q.createdAt = q'.createdAt) (t : Int) :
    q.timeOk t = q'.timeOk t := by
  simp [Query.timeOk, h]

/-- Matching the heatmap query: the window and both coordinates present. -/
theorem heatmapQuery_matches (parse : String → JSDate) (from_ to_ : Option String) (e : Event) :
    (heatmapQuery parse from_ to_).matches e =
      ((buildTimeMatch parse from_ to_).timeOk e.createdAt && (e.x.isSome && e.y.isSome)) := by
  unfold Query.matches
  rw [timeOk_congr (heatmapQuery_createdAt parse from_ to_)]
  congr 1
  unfold heatmapQuery
  rw [buildTimeMatch_eq]
  simp [Query.restOk]

/-- Matching `matchAll`: the window and, when `event` is truthy, that name. -/
theorem statsMatchAll_matches (parse : String → JSDate) (from_ to_ event : Option String)
    (e : Event) :
    (statsMatchAll parse from_ to_ event).matches e =
      ((buildTimeMatch parse from_ to_).timeOk e.createdAt &&
        (!truthy event || decide (some e.name = event))) := by
  unfold Query.matches
  rw [timeOk_congr (statsMatchAll_createdAt parse from_ to_ event)]
  congr 1
  unfold statsMatchAll
  rw [buildTimeMatch_eq]
  cases event with
  | none => simp [Query.restOk, Query.spread, truthy]
  | some ev =>
    by_cases h : ev = ""
    · simp [Query.restOk, Query.spread, truthy, h]
    · simp [Query.restOk, Query.spread, truthy, h]

/-- Matching `sessionsMatch`: the window and the name `session_started`. -/
theorem sessionsMatch_matches (parse : String → JSDate) (from_ to_ : Option String) (e : Event) :
    (sessionsMatch parse from_ to_).matches e =
      ((buildTimeMatch parse from_ to_).timeOk e.createdAt &&
        decide (e.name = "session_started")) := by
  unfold Query.matches
  rw [timeOk_congr (sessionsMatch_createdAt parse from_ to_)]
  congr 1
  unfold sessionsMatch
  rw [buildTimeMatch_eq]
  simp [Query.restOk, Query.spread]

/-- Matching `convMatch`: the window and the name `cta_clicked`. -/
theorem convMatch_matches (parse : String → JSDate) (from_ to_ : Option String) (e : Event) :
    (convMatch parse from_ to_).matches e =
      ((buildTimeMatch parse from_ to_).timeOk e.createdAt &&
        decide (e.name = "cta_clicked")) := by
  unfold Query.matches
  rw [timeOk_congr (convMatch_createdAt parse from_ to_)]
  congr 1
  unfold convMatch
  rw [buildTimeMatch_eq]
  simp [Query.restOk, Query.spread]

/-- Matching the raw-events query: the window and the truthy filters. -/
theorem eventsQuery_matches (parse : String → JSDate) (from_ to_ name variant : Option String)
    (e : Event) :
    (eventsQuery parse from_ to_ name variant).matches e =
      ((buildTimeMatch parse from_ to_).timeOk e.createdAt &&
        ((!truthy name || decide (some e.name = name)) &&
         (!truthy variant || decide (some e.variant = variant)))) := by
  unfold Query.matches
  rw [timeOk_congr (eventsQuery_createdAt parse from_ to_ name variant)]
  congr 1
  unfold eventsQuery
  rw [buildTimeMatch_eq]
  cases name with
  | none =>
    cases variant with
    | none => simp [Query.restOk, truthy]
    | some v =>
      by_cases hv : v = ""
      · simp [Query.restOk, truthy, hv]
      · simp [Query.restOk, truthy, hv]
  | some n =>
    cases variant with
    | none =>
      by_cases hn : n = ""
      · simp [Query.restOk, truthy, hn]
      · simp [Query.restOk, truthy, hn]
    | some v =>
      by_cases hn : n = "" <;> by_cases hv : v = ""
      · simp [Query.restOk, truthy, hn, hv]
      · simp [Query.restOk, truthy, hn, hv]
      · simp [Query.restOk, truthy, hn, hv]
      · simp [Query.restOk, truthy, hn, hv]

/-- The `createdAt` condition of the matcher is the window of the
specification. -/
theorem timeOk_eq_inWindow (parse : String → JSDate) (from_ to_ : Option String) (t : Int) :
    (buildTimeMatch parse from_ to_).timeOk t = inWindow parse from_ to_ t := by
  rw [buildTimeMatch_eq]
  cases hf : truthy from_ <;> cases ht : truthy to_ <;>
    simp [Query.timeOk, DateRange.accepts, inWindow, hf, ht]

/-- The matcher carries an Invalid Date exactly when a truthy bound does not
parse. -/
theorem hasInvalidDate_buildTimeMatch (parse : String → JSDate) (from_ to_ : Option String) :
    (buildTimeMatch parse from_ to_).hasInvalidDate =
      ((truthy from_ && decide (newDate parse from_ = none)) ||
       (truthy to_ && decide (newDate parse to_ = none))) := by
  rw [buildTimeMatch_eq]
  cases hf : truthy from_ <;> cases ht : truthy to_ <;> simp [Query.hasInvalidDate]

/-- Two queries with the same `createdAt` key carry an Invalid Date
together. -/
theorem hasInvalidDate_congr {q q' : Query} (h : q.createdAt = q'.createdAt) :
    q.hasInvalidDate = q'.hasInvalidDate := by
  simp [Query.hasInvalidDate, h]

/-- With bounds that are absent, empty or parsed, the matcher carries no
Invalid Date. -/
theorem hasInvalidDate_of_valid (parse : String → JSDate) (from_ to_ : Option String)
    (hfrom : truthy from_ = true → (newDate parse from_).isSome = true)
    (hto : truthy to_ = true → (newDate parse to_).isSome = true) :
    (buildTimeMatch parse from_ to_).hasInvalidDate = false := by
  rw [hasInvalidDate_buildTimeMatch]
  cases hf : truthy from_ <;> cases ht : truthy to_
  · simp
  · have h := hto ht
    cases hd : newDate parse to_ <;> simp_all
  · have h := hfrom hf
    cases hd : newDate parse from_ <;> simp_all
  · have h := hfrom hf
    have h' := hto ht
    cases hd : newDate parse from_ <;> cases hd' : newDate parse to_ <;> simp_all

/-- A `find` whose query carries an Invalid Date is answered with status
500. -/
theorem findAnswer_invalid {α : Type} (q : Query) (rows : α) (h : q.hasInvalidDate = true) :
    findAnswer q rows = .error 500 := by
  simp [findAnswer, h]

/-- A `find` whose query carries no Invalid Date is answered with its rows. -/
theorem findAnswer_valid {α : Type} (q : Query) (rows : α) (h : q.hasInvalidDate = false) :
    findAnswer q rows = .ok rows := by
  simp [findAnswer, h]

/-- The three aggregate views select by the window of the specification and
their own restriction on the name. -/
theorem statsAnswer_eq (parse : String → JSDate) (from_ to_ event : Option String)
    (events : List Event) :
    getStatsAnswer parse from_ to_ event events = .ok
      { eventsByName := sortCountDesc (groupCount ((events.filter fun e =>
          inWindow parse from_ to_ e.createdAt &&
            (!truthy event || decide (some e.name = event))).map fun e => e.name))
        sessionsByVariant := sortIdAsc (groupCount ((events.filter fun e =>
          inWindow parse from_ to_ e.createdAt &&
            decide (e.name = "session_started")).map fun e => e.variant))
        conversionsByVariant := sortIdAsc (groupCount ((events.filter fun e =>
          inWindow parse from_ to_ e.createdAt &&
            decide (e.name = "cta_clicked")).map fun e => e.variant)) } := by
  unfold getStatsAnswer eventsByName sessionsByVariant conversionsByVariant
  have h1 : events.filter (statsMatchAll parse from_ to_ event).matches =
      events.filter fun e => inWindow parse from_ to_ e.createdAt &&
        (!truthy event || decide (some e.name = event)) :=
    List.filter_congr fun e _ => by rw [statsMatchAll_matches, timeOk_eq_inWindow]
  have h2 : events.filter (sessionsMatch parse from_ to_).matches =
      events.filter fun e => inWindow parse from_ to_ e.createdAt &&
        decide (e.name = "session_started") :=
    List.filter_congr fun e _ => by rw [sessionsMatch_matches, timeOk_eq_inWindow]
  have h3 : events.filter (convMatch parse from_ to_).matches =
      events.filter fun e => inWindow parse from_ to_ e.createdAt &&
        decide (e.name = "cta_clicked") :=
    List.filter_congr fun e _ => by rw [convMatch_matches, timeOk_eq_inWindow]
  rw [h1, h2, h3]

/-- C2, refuted as stated: for `from=not-a-date`, a bound the date parser
rejects, the read paths do not treat `createdAt` alike: `GET /api/feedback`,
`GET /api/heatmap` and `GET /api/events` answer status 500 and accept no
record, while `GET /api/stats` answers status 200 and its views count the
event created at time 1000. -/
theorem invalid_bound_splits_read_paths :
    sampleParse "not-a-date" = none ∧
    getFeedbackAnswer sampleParse (some "not-a-date") none
      [{ id := 0, sessionId := "s", rating := none, text := none, createdAt := 1000 }]
      = .error 500 ∧
    getHeatmapAnswer sampleParse (some "not-a-date") none
      [sampleEvent 0 "session_started" "A" 1000] = .error 500 ∧
    getEventsAnswer sampleParse sampleNumber 101 (fun _ => 0) (some "not-a-date") none none none
      none [sampleEvent 0 "session_started" "A" 1000] = .error 500 ∧
    getStatsAnswer sampleParse (some "not-a-date") none none
      [sampleEvent 0 "session_started" "A" 1000] = .ok
        { eventsByName := [("session_started", 1)]
          sessionsByVariant := [("A", 1)]
          conversionsByVariant := [] } := by
  have hinv : (buildTimeMatch sampleParse (some "not-a-date") none).hasInvalidDate = true := by
    decide
  refine ⟨by decide, findAnswer_invalid _ _ hinv, findAnswer_invalid _ _ ?_,
    findAnswer_invalid _ _ ?_, by decide⟩
  · rw [hasInvalidDate_congr (heatmapQuery_createdAt _ _ _)]
    exact hinv
  · rw [hasInvalidDate_congr (eventsQuery_createdAt _ _ _ _ _)]
    exact hinv

/-- C2, amended: for every `from`/`to` input in which each bound is absent,
empty or parses as a timestamp, every read path answers with status 200 and
selects by one and the same window condition on `createdAt`, that of
`buildTimeMatch(from, to)`: `GET /api/feedback` answers the 200 most recent
feedback documents in the window, `GET /api/heatmap` the points of the 2000
most recent events in the window that carry `x` and `y`, the three views of
`GET /api/stats` group the events in the window that pass their restriction
on the name, and `GET /api/events` answers the limited most recent events in
the window that pass the name and variant filters; the restrictions a path
adds stand beside the window condition and do not alter it. -/
theorem time_window_same_on_all_read_paths (parse : String → JSDate)
    (toNumber : String → JSNum) (batch : Nat) (other : JSNum → Nat)
    (from_ to_ event name variant limit : Option String)
    (feedback : List Feedback) (events : List Event)
    (hfrom : truthy from_ = true → (newDate parse from_).isSome = true)
    (hto : truthy to_ = true → (newDate parse to_).isSome = true) :
    getFeedbackAnswer parse from_ to_ feedback = .ok
      ((sortRecentFeedback (feedback.filter fun f =>
          inWindow parse from_ to_ f.createdAt)).take 200) ∧
    getHeatmapAnswer parse from_ to_ events = .ok
      (((sortRecent (events.filter fun e =>
          inWindow parse from_ to_ e.createdAt && (e.x.isSome && e.y.isSome))).take 2000).map
        fun e => { x := e.x, y := e.y }) ∧
    (∃ body : StatsBody, getStatsAnswer parse from_ to_ event events = .ok body ∧
      body.eventsByName.Perm (groupCount ((events.filter fun e =>
          inWindow parse from_ to_ e.createdAt &&
            (!truthy event || decide (some e.name = event))).map fun e => e.name)) ∧
      body.eventsByName.Pairwise (fun a b => b.2 ≤ a.2) ∧
      body.sessionsByVariant = sortIdAsc (groupCount ((events.filter fun e =>
          inWindow parse from_ to_ e.createdAt &&
            decide (e.name = "session_started")).map fun e => e.variant)) ∧
      body.conversionsByVariant = sortIdAsc (groupCount ((events.filter fun e =>
          inWindow parse from_ to_ e.createdAt &&
            decide (e.name = "cta_clicked")).map fun e => e.variant))) ∧
    getEventsAnswer parse toNumber batch other from_ to_ name variant limit events = .ok
      ((cursorLimit batch other (eventsMax toNumber limit)
        (sortRecent (events.filter fun e =>
          inWindow parse from_ to_ e.createdAt &&
            ((!truthy name || decide (some e.name = name)) &&
             (!truthy variant || decide (some e.variant = variant)))))).map Event.toRow) ∧
    (∀ t : Int, inWindow parse from_ to_ t = true ↔
      ((truthy from_ = false ∨ ∃ d, newDate parse from_ = some d ∧ d ≤ t) ∧
       (truthy to_ = false ∨ ∃ d, newDate parse to_ = some d ∧ t ≤ d))) := by
  have hv := hasInvalidDate_of_valid parse from_ to_ hfrom hto
  refine ⟨?_, ?_, ⟨_, statsAnswer_eq parse from_ to_ event events,
    List.perm_insertionSort _ _,
    @List.sorted_insertionSort _ (fun a b : String × Nat => b.2 ≤ a.2) _
      ⟨fun a b => le_total b.2 a.2⟩ ⟨fun _ _ _ hab hbc => le_trans hbc hab⟩ _,
    rfl, rfl⟩, ?_, ?_⟩
  · unfold getFeedbackAnswer
    have hvf : (feedbackQuery parse from_ to_).hasInvalidDate = false := hv
    rw [findAnswer_valid _ _ hvf]
    unfold getFeedback feedbackQuery
    have h : feedback.filter (buildTimeMatch parse from_ to_).matchesFeedback =
        feedback.filter fun f => inWindow parse from_ to_ f.createdAt :=
      List.filter_congr fun f _ => by
        rw [← timeOk_eq_inWindow, buildTimeMatch_eq]
        simp [Query.matchesFeedback]
    rw [h]
    rfl
  · unfold getHeatmapAnswer
    have hvh : (heatmapQuery parse from_ to_).hasInvalidDate = false := by
      rw [hasInvalidDate_congr (heatmapQuery_createdAt _ _ _)]
      exact hv
    rw [findAnswer_valid _ _ hvh]
    unfold getHeatmap heatmapRows heatmapMatching
    have h : events.filter (heatmapQuery parse from_ to_).matches =
        events.filter fun e =>
          inWindow parse from_ to_ e.createdAt && (e.x.isSome && e.y.isSome) :=
      List.filter_congr fun e _ => by rw [heatmapQuery_matches, timeOk_eq_inWindow]
    rw [h]
    rfl
  · unfold getEventsAnswer
    have hve : (eventsQuery parse from_ to_ name variant).hasInvalidDate = false := by
      rw [hasInvalidDate_congr (eventsQuery_createdAt _ _ _ _ _)]
      exact hv
    rw [findAnswer_valid _ _ hve]
    unfold getEvents
    have h : events.filter (eventsQuery parse from_ to_ name variant).matches =
        events.filter fun e =>
          inWindow parse from_ to_ e.createdAt &&
            ((!truthy name || decide (some e.name = name)) &&
             (!truthy variant || decide (some e.variant = variant))) :=
      List.filter_congr fun e _ => by rw [eventsQuery_matches, timeOk_eq_inWindow]
    rw [h]
  · intro t
    unfold inWindow
    cases hf : truthy from_ <;> cases ht : truthy to_
    · simp
    · obtain ⟨d, hd⟩ := Option.isSome_iff_exists.1 (hto ht)
      simp [hd, leBound]
    · obtain ⟨d, hd⟩ := Option.isSome_iff_exists.1 (hfrom hf)
      simp [hd, geBound]
    · obtain ⟨d, hd⟩ := Option.isSome_iff_exists.1 (hfrom hf)
      obtain ⟨d', hd'⟩ := Option.isSome_iff_exists.1 (hto ht)
      simp [hd, hd', geBound, leBound]

/-- C2, amended, at a concrete input: the window from 1000 to 2000, a
feedback store with one document inside and one outside the window, and an
event store with one event inside it. -/
theorem time_window_same_on_all_read_paths_witness :
    (truthy (some "t1000") = true → (newDate sampleParse (some "t1000")).isSome = true) ∧
    (truthy (some "t2000") = true → (newDate sampleParse (some "t2000")).isSome = true) ∧
    getFeedbackAnswer sampleParse (some "t1000") (some "t2000")
      [{ id := 0, sessionId := "s", rating := none, text := none, createdAt := 1500 },
       { id := 1, sessionId := "s", rating := none, text := none, createdAt := 2500 }] = .ok
      ((sortRecentFeedback
        (([{ id := 0, sessionId := "s", rating := none, text := none, createdAt := 1500 },
           { id := 1, sessionId := "s", rating := none, text := none, createdAt := 2500 }] :
            List Feedback).filter fun f =>
          inWindow sampleParse (some "t1000") (some "t2000") f.createdAt)).take 200) :=
  ⟨fun _ => by decide, fun _ => by decide,
    (time_window_same_on_all_read_paths sampleParse sampleNumber 101 (fun _ => 0)
      (some "t1000") (some "t2000") none none none none
      [{ id := 0, sessionId := "s", rating := none, text := none, createdAt := 1500 },
       { id := 1, sessionId := "s", rating := none, text := none, createdAt := 2500 }]
      [sampleEvent 0 "page_click" "A" 1500]
      (fun _ => by decide) (fun _ => by decide)).1⟩

/-! ## Bounds that do not parse -/

/-- C7, refuted as stated: with a date parser that rejects `not-a-date`,
the matcher built from `from = "not-a-date"` is not the matcher built with
`from` omitted, since it carries a `$gte` bound holding an Invalid Date; and
the request is rejected: `GET /api/feedback` answers status 500 for it, where
it answers the stored document when `from` is omitted. -/
theorem unparsable_bound_not_dropped :
    sampleParse "not-a-date" = none ∧ "not-a-date" ≠ "" ∧
    buildTimeMatch sampleParse (some "not-a-date") none
      ≠ buildTimeMatch sampleParse none none ∧
    (buildTimeMatch sampleParse (some "not-a-date") none).createdAt
      = some { gte := some none, lte := none } ∧
    (buildTimeMatch sampleParse none none).createdAt = none ∧
    getFeedbackAnswer sampleParse (some "not-a-date") none
      [{ id := 0, sessionId := "s", rating := none, text := none, createdAt := 1000 }]
      = .error 500 ∧
    getFeedbackAnswer sampleParse none none
      [{ id := 0, sessionId := "s", rating := none, text := none, createdAt := 1000 }]
      = .ok [{ id := 0, sessionId := "s", rating := none, text := none, createdAt := 1000 }] := by
  refine ⟨?_, ?_, ?_, ?_, ?_, ?_, ?_⟩ <;> decide

/-- C7, amended: only an absent or empty bound is left out of the matcher. A
non-empty bound that the date parser rejects stays in the matcher, as an
Invalid Date on its side (`$gte` for `from`, `$lte` for `to`), so the matcher
differs from the one built with that bound omitted. The request is then
rejected with status 500 by `GET /api/feedback`, `GET /api/heatmap` and
`GET /api/events`, whatever the other bound is; `GET /api/stats` is not
rejected: it answers with status 200, its views comparing `createdAt` with
time 0 in place of the bound that does not parse. -/
theorem unparsable_bound_kept_as_invalid_date (parse : String → JSDate) (s : String)
    (other : Option String) (hs : s ≠ "") (hp : parse s = none) :
    (buildTimeMatch parse (some s) other).createdAt =
      some { gte := some none
             lte := if truthy other then some (newDate parse other) else none } ∧
    (buildTimeMatch parse other (some s)).createdAt =
      some { gte := if truthy other then some (newDate parse other) else none
             lte := some none } ∧
    buildTimeMatch parse (some s) other ≠ buildTimeMatch parse none other ∧
    buildTimeMatch parse other (some s) ≠ buildTimeMatch parse other none ∧
    buildTimeMatch parse (some "") other = buildTimeMatch parse none other ∧
    buildTimeMatch parse other (some "") = buildTimeMatch parse other none ∧
    (∀ feedback : List Feedback,
      getFeedbackAnswer parse (some s) other feedback = .error 500 ∧
      getFeedbackAnswer parse other (some s) feedback = .error 500) ∧
    (∀ events : List Event,
      getHeatmapAnswer parse (some s) other events = .error 500 ∧
      getHeatmapAnswer parse other (some s) events = .error 500) ∧
    (∀ (toNumber : String → JSNum) (batch : Nat) (count : JSNum → Nat)
        (name variant limit : Option String) (events : List Event),
      getEventsAnswer parse toNumber batch count (some s) other name variant limit events
        = .error 500 ∧
      getEventsAnswer parse toNumber batch count other (some s) name variant limit events
        = .error 500) ∧
    (∀ (event : Option String) (events : List Event),
      (∃ body, getStatsAnswer parse (some s) other event events = .ok body) ∧
      (∃ body, getStatsAnswer parse other (some s) event events = .ok body)) ∧
    (∀ t : Int,
      (buildTimeMatch parse (some s) other).timeOk t =
        (decide (0 ≤ t) && (!truthy other || leBound t (newDate parse other))) ∧
      (buildTimeMatch parse other (some s)).timeOk t =
        ((!truthy other || geBound t (newDate parse other)) && decide (t ≤ 0))) := by
  have hts : truthy (some s) = true := (truthy_some s).2 hs
  have hte : truthy (some "") = false := by decide
  have hinv1 : (buildTimeMatch parse (some s) other).hasInvalidDate = true := by
    rw [hasInvalidDate_buildTimeMatch]
    simp [hts, newDate, hp]
  have hinv2 : (buildTimeMatch parse other (some s)).hasInvalidDate = true := by
    rw [hasInvalidDate_buildTimeMatch]
    simp [hts, newDate, hp]
  refine ⟨?_, ?_, ?_, ?_, ?_, ?_, ?_, ?_, ?_, ?_, ?_⟩
  · rw [buildTimeMatch_eq]
    simp [hts, newDate, hp]
  · rw [buildTimeMatch_eq]
    simp [hts, newDate, hp]
  · rw [buildTimeMatch_eq, buildTimeMatch_eq]
    cases ho : truthy other <;> simp [hts, truthy_none, newDate, hp]
  · rw [buildTimeMatch_eq, buildTimeMatch_eq]
    cases ho : truthy other <;> simp [hts, truthy_none, newDate, hp]
  · rw [buildTimeMatch_eq, buildTimeMatch_eq]
    simp [hte, truthy_none]
  · rw [buildTimeMatch_eq, buildTimeMatch_eq]
    simp [hte, truthy_none]
  · intro feedback
    exact ⟨findAnswer_invalid _ _ hinv1, findAnswer_invalid _ _ hinv2⟩
  · intro events
    refine ⟨findAnswer_invalid _ _ ?_, findAnswer_invalid _ _ ?_⟩
    · rw [hasInvalidDate_congr (heatmapQuery_createdAt _ _ _)]
      exact hinv1
    · rw [hasInvalidDate_congr (heatmapQuery_createdAt _ _ _)]
      exact hinv2
  · intro toNumber batch count name variant limit events
    refine ⟨findAnswer_invalid _ _ ?_, findAnswer_invalid _ _ ?_⟩
    · rw [hasInvalidDate_congr (eventsQuery_createdAt _ _ _ _ _)]
      exact hinv1
    · rw [hasInvalidDate_congr (eventsQuery_createdAt _ _ _ _ _)]
      exact hinv2
  · intro event events
    exact ⟨⟨_, rfl⟩, ⟨_, rfl⟩⟩
  · intro t
    rw [timeOk_eq_inWindow, timeOk_eq_inWindow]
    simp [inWindow, hts, newDate, hp, geBound, leBound]

/-- C7, amended, at a concrete input: the bound `not-a-date` with a parser
that rejects it. -/
theorem unparsable_bound_kept_as_invalid_date_witness :
    "not-a-date" ≠ "" ∧ sampleParse "not-a-date" = none ∧
    buildTimeMatch sampleParse (some "not-a-date") none
      ≠ buildTimeMatch sampleParse none none ∧
    getHeatmapAnswer sampleParse (some "not-a-date") none [sampleEvent 0 "page_click" "A" 5]
      = .error 500 :=
  ⟨by decide, by decide,
    (unparsable_bound_kept_as_invalid_date sampleParse "not-a-date" none
      (by decide) (by decide)).2.2.1,
    ((unparsable_bound_kept_as_invalid_date sampleParse "not-a-date" none
      (by decide) (by decide)).2.2.2.2.2.2.2.1 [sampleEvent 0 "page_click" "A" 5]).1⟩

/-! ## The group stage -/

/-- The keys after one more document: unchanged when the key has a group,
otherwise the new key comes last. -/
theorem bump_keys (k : String) (acc : List (String × Nat)) :
    (bump k acc).map Prod.fst =
      if k ∈ acc.map Prod.fst then acc.map Prod.fst else acc.map Prod.fst ++ [k] := by
  induction acc with
  | nil => simp [bump]
  | cons a rest ih =>
    obtain ⟨a, m⟩ := a
    by_cases h : a = k
    · simp [bump, h]
    · have h' : ¬ k = a := fun e => h e.symm
      by_cases hk : k ∈ rest.map Prod.fst
      · simp only [bump, h, if_false, List.map_cons, ih, hk, if_true, List.mem_cons, or_true]
      · simp only [bump, h, if_false, List.map_cons, ih, hk, List.mem_cons, h', or_false,
          List.cons_append]

/-- One more document keeps the group keys distinct. -/
theorem bump_nodup (k : String) (acc : List (String × Nat))
    (h : (acc.map Prod.fst).Nodup) : ((bump k acc).map Prod.fst).Nodup := by
  rw [bump_keys]
  by_cases hk : k ∈ acc.map Prod.fst
  · simpa [hk] using h
  · rw [if_neg hk]
    exact List.nodup_append.2 ⟨h, List.nodup_singleton k, by
      intro a ha hb
      rw [List.mem_singleton] at hb
      exact hk (hb ▸ ha)⟩

/-- The groups after one more document of key `k`: other groups are
untouched, the group of `k` gains one, or starts at one. -/
theorem mem_bump (k : String) (acc : List (String × Nat))
    (h : (acc.map Prod.fst).Nodup) (k' : String) (n : Nat) :
    (k', n) ∈ bump k acc ↔
      (k' ≠ k ∧ (k', n) ∈ acc) ∨
      (k' = k ∧ ((∃ m, (k, m) ∈ acc ∧ n = m + 1) ∨ (k ∉ acc.map Prod.fst ∧ n = 1))) := by
  induction acc with
  | nil =>
    simp only [bump, List.mem_singleton, Prod.mk.injEq, List.not_mem_nil, and_false,
      false_and, exists_false, List.map_nil, not_false_eq_true, true_and, false_or]
  | cons a rest ih =>
    obtain ⟨a, m⟩ := a
    have hnd := List.nodup_cons.1 h
    have ha : ∀ j, (a, j) ∉ rest := fun j hj => hnd.1 (List.mem_map.2 ⟨(a, j), hj, rfl⟩)
    by_cases hak : a = k
    · subst hak
      simp only [bump, if_true, List.mem_cons, Prod.mk.injEq, List.map_cons, true_or,
        not_true_eq_false, false_and, or_false]
      constructor
      · rintro (⟨rfl, rfl⟩ | hmem)
        · exact Or.inr ⟨rfl, m, Or.inl ⟨trivial, rfl⟩, rfl⟩
        · by_cases hk' : k' = a
          · subst hk'
            exact absurd hmem (ha n)
          · exact Or.inl ⟨hk', Or.inr hmem⟩
      · rintro (⟨hne, (⟨h1, _⟩ | hmem)⟩ | ⟨rfl, m', (⟨_, rfl⟩ | hmem), rfl⟩)
        · exact absurd h1 hne
        · exact Or.inr hmem
        · exact Or.inl ⟨rfl, rfl⟩
        · exact absurd hmem (ha m')
    · have hka : ¬ k = a := fun e => hak e.symm
      simp only [bump, hak, if_false, List.mem_cons, Prod.mk.injEq, ih hnd.2, List.map_cons,
        hka, false_or, false_and]
      constructor
      · rintro (⟨rfl, rfl⟩ | ⟨hne, hmem⟩ | ⟨rfl, hrest⟩)
        · exact Or.inl ⟨hak, Or.inl ⟨rfl, rfl⟩⟩
        · exact Or.inl ⟨hne, Or.inr hmem⟩
        · exact Or.inr ⟨rfl, hrest⟩
      · rintro (⟨hne, (⟨rfl, rfl⟩ | hmem)⟩ | ⟨rfl, hrest⟩)
        · exact Or.inl ⟨rfl, rfl⟩
        · exact Or.inr (Or.inl ⟨hne, hmem⟩)
        · exact Or.inr (Or.inr ⟨rfl, hrest⟩)

/-- Membership of a key among the keys after one more document. -/
theorem mem_bump_keys (k k' : String) (acc : List (String × Nat)) :
    k' ∈ (bump k acc).map Prod.fst ↔ k' = k ∨ k' ∈ acc.map Prod.fst := by
  rw [bump_keys]
  by_cases hk : k ∈ acc.map Prod.fst
  · rw [if_pos hk]
    constructor
    · exact Or.inr
    · rintro (rfl | h)
      · exact hk
      · exact h
  · rw [if_neg hk, List.mem_append, List.mem_singleton]
    exact or_comm

/-- The group stage run from the groups `acc`: the keys stay distinct, a group
of `acc` gains the number of documents of its key, and a key new to `acc`
gets a group exactly when a document carries it. -/
theorem foldl_bump_spec (keys : List String) :
    ∀ acc : List (String × Nat), (acc.map Prod.fst).Nodup →
      ((keys.foldl (fun acc k => bump k acc) acc).map Prod.fst).Nodup ∧
      ∀ k n, (k, n) ∈ keys.foldl (fun acc k => bump k acc) acc ↔
        ((∃ m, (k, m) ∈ acc ∧ n = m + keys.count k) ∨
         (k ∉ acc.map Prod.fst ∧ n = keys.count k ∧ 0 < n)) := by
  induction keys with
  | nil =>
    intro acc h
    refine ⟨h, fun k n => ?_⟩
    simp only [List.foldl_nil, List.count_nil, Nat.add_zero]
    constructor
    · intro hm
      exact Or.inl ⟨n, hm, rfl⟩
    · rintro (⟨m, hm, rfl⟩ | ⟨_, h0, hpos⟩)
      · exact hm
      · omega
  | cons k0 ks ih =>
    intro acc h
    have hnd := bump_nodup k0 acc h
    obtain ⟨h1, h2⟩ := ih (bump k0 acc) hnd
    refine ⟨h1, fun k n => ?_⟩
    rw [List.foldl_cons, h2 k n]
    by_cases hk : k = k0
    · subst hk
      have hc : (k :: ks).count k = ks.count k + 1 := by simp
      rw [hc]
      constructor
      · rintro (⟨m', hm', rfl⟩ | ⟨hnot, _, _⟩)
        · rcases (mem_bump k acc h k m').1 hm' with ⟨hne, _⟩ | ⟨_, ⟨m, hm, rfl⟩ | ⟨hnk, rfl⟩⟩
          · exact absurd rfl hne
          · exact Or.inl ⟨m, hm, by omega⟩
          · exact Or.inr ⟨hnk, by omega, by omega⟩
        · exact absurd ((mem_bump_keys k k acc).2 (Or.inl rfl)) hnot
      · rintro (⟨m, hm, rfl⟩ | ⟨hnk, rfl, _⟩)
        · exact Or.inl ⟨m + 1, (mem_bump k acc h k (m + 1)).2
            (Or.inr ⟨rfl, Or.inl ⟨m, hm, rfl⟩⟩), by omega⟩
        · exact Or.inl ⟨1, (mem_bump k acc h k 1).2
            (Or.inr ⟨rfl, Or.inr ⟨hnk, rfl⟩⟩), by omega⟩
    · have hc : (k0 :: ks).count k = ks.count k := by
        rw [List.count_cons]
        have : (k0 == k) = false := by simpa using fun e : k0 = k => hk e.symm
        simp [this]
      have hmem : ∀ m, (k, m) ∈ bump k0 acc ↔ (k, m) ∈ acc := by
        intro m
        rw [mem_bump k0 acc h k m]
        constructor
        · rintro (⟨_, hm⟩ | ⟨he, _⟩)
          · exact hm
          · exact absurd he hk
        · intro hm
          exact Or.inl ⟨hk, hm⟩
      have hkeys : k ∈ (bump k0 acc).map Prod.fst ↔ k ∈ acc.map Prod.fst := by
        rw [mem_bump_keys]
        constructor
        · rintro (he | hm)
          · exact absurd he hk
          · exact hm
        · exact Or.inr
      rw [hc, hkeys]
      simp only [hmem]

/-- The group stage: the group keys are distinct, and `(key, n)` is an output
document iff `n` is the number of input documents of that key and is
positive. -/
theorem groupCount_spec (keys : List String) :
    ((groupCount keys).map Prod.fst).Nodup ∧
    ∀ k n, (k, n) ∈ groupCount keys ↔ (n = keys.count k ∧ 0 < n) := by
  obtain ⟨h1, h2⟩ := foldl_bump_spec keys [] (by simp)
  refine ⟨h1, fun k n => ?_⟩
  unfold groupCount
  rw [h2 k n]
  simp

/-- Counting a key among the projected matches is counting the documents that
match and carry the key. -/
theorem count_map_filter (p : Event → Bool) (f : Event → String) (k : String)
    (store : List Event) :
    ((store.filter p).map f).count k = store.countP fun e => p e && decide (f e = k) := by
  induction store with
  | nil => rfl
  | cons e rest ih =>
    by_cases hp : p e = true
    · by_cases hf : f e = k
      · simp [List.filter_cons, hp, hf, List.countP_cons, ih]
      · simp [List.filter_cons, hp, hf, List.countP_cons, ih, List.count_cons]
    · simp [List.filter_cons, hp, List.countP_cons, ih]

/-- The group documents do not repeat, since their keys do not. -/
theorem groupCount_nodup (keys : List String) : (groupCount keys).Nodup :=
  List.Nodup.of_map Prod.fst (groupCount_spec keys).1

/-- The group stage on two input sequences holding the same documents in a
different order gives the same groups, possibly in a different order. -/
theorem groupCount_perm {keys keys' : List String} (h : keys.Perm keys') :
    (groupCount keys).Perm (groupCount keys') := by
  rw [List.perm_ext_iff_of_nodup (groupCount_nodup keys) (groupCount_nodup keys')]
  rintro ⟨k, n⟩
  rw [(groupCount_spec keys).2 k n, (groupCount_spec keys').2 k n, h.count_eq k]

/-! ## The view `eventsByName` -/

/-- The sort by count rearranges the groups and leaves the counts in
descending order. -/
theorem sortCountDesc_spec (groups : List (String × Nat)) :
    (sortCountDesc groups).Perm groups ∧
    (sortCountDesc groups).Pairwise (fun a b => b.2 ≤ a.2) := by
  refine ⟨List.perm_insertionSort _ _, ?_⟩
  exact @List.sorted_insertionSort _ (fun a b : String × Nat => b.2 ≤ a.2) _
    ⟨fun a b => le_total b.2 a.2⟩ ⟨fun _ _ _ hab hbc => le_trans hbc hab⟩ groups

/-- The executable view is one of the outputs the pipeline admits. -/
theorem eventsByName_admitted (parse : String → JSDate) (from_ to_ event : Option String)
    (store : List Event) :
    EventsByNameOutput parse from_ to_ event store (eventsByName parse from_ to_ event store) :=
  ⟨(sortCountDesc_spec _).1, (sortCountDesc_spec _).2⟩

/-- C3, refuted as stated: with one `b` event and one `a` event stored and no
window or filter, the pipeline of `eventsByName` admits the output `[b, a]`,
in which two names of equal count are not in ascending name order, as well as
the output `[a, b]`: the single sort key `count` does not determine the
sequence. -/
theorem eventsByName_ties_not_in_name_order :
    EventsByNameOutput (fun _ => none) none none none
      [sampleEvent 0 "b" "A" 1, sampleEvent 1 "a" "A" 2] [("b", 1), ("a", 1)] ∧
    EventsByNameOutput (fun _ => none) none none none
      [sampleEvent 0 "b" "A" 1, sampleEvent 1 "a" "A" 2] [("a", 1), ("b", 1)] ∧
    ¬ strLe "b" "a" ∧
    [("b", 1), ("a", 1)] ≠ [("a", 1), ("b", 1)] := by
  refine ⟨by decide, by decide, by decide, by decide⟩

/-- C3, amended: for every store, window and event-name filter, every output
the pipeline of `eventsByName` admits has one entry per name carried by a
matching event, its count the number of matching events of that name, and
the counts are in descending order. The sort has the single key `count`, so
the order among names of equal count is not fixed: the output is determined
by the matching events up to the order of its entries only, two admitted
outputs for stores holding the same events being rearrangements of each
other. The pipeline always admits an output. -/
theorem eventsByName_spec (parse : String → JSDate) (from_ to_ event : Option String)
    (store : List Event) (out : List (String × Nat))
    (hout : EventsByNameOutput parse from_ to_ event store out) :
    (∀ k n, (k, n) ∈ out ↔
      (n = store.countP (fun e =>
          (statsMatchAll parse from_ to_ event).matches e && decide (e.name = k)) ∧ 0 < n)) ∧
    (out.map Prod.fst).Nodup ∧
    out.Pairwise (fun a b => b.2 ≤ a.2) ∧
    (∀ (store' : List Event) (out' : List (String × Nat)), store.Perm store' →
      EventsByNameOutput parse from_ to_ event store' out' → out.Perm out') ∧
    EventsByNameOutput parse from_ to_ event store (eventsByName parse from_ to_ event store) := by
  refine ⟨fun k n => ?_, ?_, hout.2, fun store' out' h hout' => ?_,
    eventsByName_admitted parse from_ to_ event store⟩
  · rw [hout.1.mem_iff, (groupCount_spec _).2 k n, count_map_filter]
  · exact ((hout.1.map Prod.fst).nodup_iff).2 (groupCount_spec _).1
  · exact (hout.1.trans (groupCount_perm ((h.filter _).map _))).trans hout'.1.symm

/-- C3, amended, at a concrete input: the output `[b, a]` for the store of one
`b` event and one `a` event. -/
theorem eventsByName_spec_witness :
    EventsByNameOutput (fun _ => none) none none none
      [sampleEvent 0 "b" "A" 1, sampleEvent 1 "a" "A" 2] [("b", 1), ("a", 1)] ∧
    (List.map Prod.fst [("b", 1), ("a", 1)]).Nodup ∧
    List.Pairwise (fun a b : String × Nat => b.2 ≤ a.2) [("b", 1), ("a", 1)] :=
  ⟨by decide,
    (eventsByName_spec (fun _ => none) none none none
      [sampleEvent 0 "b" "A" 1, sampleEvent 1 "a" "A" 2] [("b", 1), ("a", 1)]
      (by decide)).2.1,
    (eventsByName_spec (fun _ => none) none none none
      [sampleEvent 0 "b" "A" 1, sampleEvent 1 "a" "A" 2] [("b", 1), ("a", 1)]
      (by decide)).2.2.1⟩

/-! ## The views by variant -/

/-- The sort by key rearranges the groups and leaves the keys in ascending
order. -/
theorem sortIdAsc_spec (groups : List (String × Nat)) :
    (sortIdAsc groups).Perm groups ∧
    (sortIdAsc groups).Pairwise (fun a b => strLe a.1 b.1) := by
  refine ⟨List.perm_insertionSort _ _, ?_⟩
  exact @List.sorted_insertionSort _ (fun a b : String × Nat => strLe a.1 b.1) _
    ⟨fun a b => le_total (a.1.data.map Char.toNat) (b.1.data.map Char.toNat)⟩
    ⟨fun _ _ _ hab hbc => le_trans hab hbc⟩ groups

/-- Counting per key then sorting by key: one entry per key that occurs, with
its number of occurrences, in strictly ascending key order. -/
theorem sortIdAsc_groupCount_spec (keys : List String) :
    (∀ k n, (k, n) ∈ sortIdAsc (groupCount keys) ↔ (n = keys.count k ∧ 0 < n)) ∧
    ((sortIdAsc (groupCount keys)).map Prod.fst).Nodup ∧
    (sortIdAsc (groupCount keys)).Pairwise (fun a b => strLt a.1 b.1) := by
  have hnd : ((sortIdAsc (groupCount keys)).map Prod.fst).Nodup :=
    (((sortIdAsc_spec _).1.map Prod.fst).nodup_iff).2 (groupCount_spec _).1
  refine ⟨fun k n => ?_, hnd, ?_⟩
  · rw [(sortIdAsc_spec _).1.mem_iff, (groupCount_spec _).2 k n]
  · have hne : (sortIdAsc (groupCount keys)).Pairwise (fun a b => a.1 ≠ b.1) :=
      List.pairwise_map.1 hnd
    exact ((sortIdAsc_spec (groupCount keys)).2.and hne).imp fun h => h

/-- C4: for every store and window, `sessionsByVariant` has exactly one entry
per variant carried by a `session_started` event in the window, its count the
number of those events, the entries in ascending variant order;
`conversionsByVariant` is the same over `cta_clicked` events; on the store of
scenario A without a window the two views are `[(A, 10), (B, 6)]` and
`[(A, 4), (B, 3)]`. -/
theorem variant_views_spec (parse : String → JSDate) (from_ to_ : Option String)
    (store : List Event) :
    ((∀ v n, (v, n) ∈ sessionsByVariant parse from_ to_ store ↔
        (n = store.countP (fun e =>
            ((buildTimeMatch parse from_ to_).timeOk e.createdAt &&
              decide (e.name = "session_started")) && decide (e.variant = v)) ∧ 0 < n)) ∧
      ((sessionsByVariant parse from_ to_ store).map Prod.fst).Nodup ∧
      (sessionsByVariant parse from_ to_ store).Pairwise (fun a b => strLt a.1 b.1)) ∧
    ((∀ v n, (v, n) ∈ conversionsByVariant parse from_ to_ store ↔
        (n = store.countP (fun e =>
            ((buildTimeMatch parse from_ to_).timeOk e.createdAt &&
              decide (e.name = "cta_clicked")) && decide (e.variant = v)) ∧ 0 < n)) ∧
      ((conversionsByVariant parse from_ to_ store).map Prod.fst).Nodup ∧
      (conversionsByVariant parse from_ to_ store).Pairwise (fun a b => strLt a.1 b.1)) ∧
    sessionsByVariant parse none none scenarioA = [("A", 10), ("B", 6)] ∧
    conversionsByVariant parse none none scenarioA = [("A", 4), ("B", 3)] := by
  refine ⟨⟨fun v n => ?_, (sortIdAsc_groupCount_spec _).2.1, (sortIdAsc_groupCount_spec _).2.2⟩,
    ⟨fun v n => ?_, (sortIdAsc_groupCount_spec _).2.1, (sortIdAsc_groupCount_spec _).2.2⟩,
    rfl, rfl⟩
  · unfold sessionsByVariant
    rw [(sortIdAsc_groupCount_spec _).1 v n, count_map_filter]
    simp only [sessionsMatch_matches]
  · unfold conversionsByVariant
    rw [(sortIdAsc_groupCount_spec _).1 v n, count_map_filter]
    simp only [convMatch_matches]

/-! ## Bounded reads -/

/-- A limit that is a natural number keeps that many leading rows. -/
theorem limitRows_nat {α : Type} (n : Nat) (rows : List α) :
    limitRows n rows = rows.take n := rfl

/-- The sort by recency rearranges the rows and leaves the creation times in
descending order. -/
theorem sortRecent_spec (rows : List Event) :
    (sortRecent rows).Perm rows ∧
    (sortRecent rows).Pairwise (fun a b => b.createdAt ≤ a.createdAt) := by
  refine ⟨List.perm_insertionSort _ _, ?_⟩
  exact @List.sorted_insertionSort _ (fun a b : Event => b.createdAt ≤ a.createdAt) _
    ⟨fun a b => le_total b.createdAt a.createdAt⟩ ⟨fun _ _ _ hab hbc => le_trans hbc hab⟩ rows

/-- Every event of the sample store matches the heatmap query without a
window. -/
theorem pointStore_matching (parse : String → JSDate) (n : Nat) :
    heatmapMatching parse none none (pointStore n) = pointStore n := by
  unfold heatmapMatching
  rw [List.filter_eq_self]
  intro e he
  rw [heatmapQuery_matches, buildTimeMatch_eq]
  unfold pointStore at he
  obtain ⟨i, _, rfl⟩ := List.mem_map.1 he
  simp [truthy, Query.timeOk]

/-- C5: for every store and window, `GET /api/heatmap` answers the `(x, y)`
of events of the store that lie in the window and carry both `x` and `y`, in
descending `createdAt` order; it answers `min(n, 2000)` points, `n` being the
number of such events; the selected events together with the ones left out
are the `n` matching events, and none left out is more recent than a selected
one; so 2500 matching events give exactly 2000 points, as on the sample store
of 2500 clicks. -/
theorem heatmap_spec (parse : String → JSDate) (from_ to_ : Option String)
    (store : List Event) :
    getHeatmap parse from_ to_ store
      = (heatmapRows parse from_ to_ store).map (fun e => { x := e.x, y := e.y }) ∧
    (∀ e, e ∈ heatmapMatching parse from_ to_ store ↔
      (e ∈ store ∧ (buildTimeMatch parse from_ to_).timeOk e.createdAt = true ∧
        e.x.isSome = true ∧ e.y.isSome = true)) ∧
    (∀ e ∈ heatmapRows parse from_ to_ store, e ∈ heatmapMatching parse from_ to_ store) ∧
    (∀ p ∈ getHeatmap parse from_ to_ store, p.x.isSome = true ∧ p.y.isSome = true) ∧
    (heatmapRows parse from_ to_ store).Pairwise (fun a b => b.createdAt ≤ a.createdAt) ∧
    (getHeatmap parse from_ to_ store).length
      = min (heatmapMatching parse from_ to_ store).length 2000 ∧
    (∃ dropped : List Event,
      (heatmapRows parse from_ to_ store ++ dropped).Perm
        (heatmapMatching parse from_ to_ store) ∧
      ∀ r ∈ heatmapRows parse from_ to_ store, ∀ d ∈ dropped, d.createdAt ≤ r.createdAt) ∧
    ((heatmapMatching parse from_ to_ store).length = 2500 →
      (getHeatmap parse from_ to_ store).length = 2000) ∧
    (heatmapMatching parse none none (pointStore 2500)).length = 2500 ∧
    (getHeatmap parse none none (pointStore 2500)).length = 2000 := by
  have hrows : heatmapRows parse from_ to_ store
      = (sortRecent (heatmapMatching parse from_ to_ store)).take 2000 := by
    unfold heatmapRows
    exact limitRows_nat 2000 _
  have hsorted := (sortRecent_spec (heatmapMatching parse from_ to_ store)).2
  have hperm := (sortRecent_spec (heatmapMatching parse from_ to_ store)).1
  have hmem : ∀ e, e ∈ heatmapMatching parse from_ to_ store ↔
      (e ∈ store ∧ (buildTimeMatch parse from_ to_).timeOk e.createdAt = true ∧
        e.x.isSome = true ∧ e.y.isSome = true) := by
    intro e
    unfold heatmapMatching
    rw [List.mem_filter, heatmapQuery_matches]
    simp [and_assoc]
  have hsub : ∀ e ∈ heatmapRows parse from_ to_ store,
      e ∈ heatmapMatching parse from_ to_ store := by
    intro e he
    rw [hrows] at he
    exact hperm.mem_iff.1 (List.mem_of_mem_take he)
  have hlen : ∀ st : List Event, (getHeatmap parse none none st).length
      = min (heatmapMatching parse none none st).length 2000 := by
    intro st
    have h2000 : ∀ rows : List Event, limitRows 2000 rows = rows.take 2000 :=
      fun rows => limitRows_nat 2000 rows
    unfold getHeatmap heatmapRows
    rw [List.length_map, h2000, List.length_take, (sortRecent_spec _).1.length_eq, min_comm]
  have hlen' : (getHeatmap parse from_ to_ store).length
      = min (heatmapMatching parse from_ to_ store).length 2000 := by
    unfold getHeatmap
    rw [List.length_map, hrows, List.length_take, hperm.length_eq, min_comm]
  have hstore : (heatmapMatching parse none none (pointStore 2500)).length = 2500 := by
    rw [pointStore_matching]
    simp [pointStore]
  refine ⟨rfl, hmem, hsub, ?_, ?_, hlen', ?_, ?_, hstore, ?_⟩
  · intro p hp
    unfold getHeatmap at hp
    obtain ⟨e, he, rfl⟩ := List.mem_map.1 hp
    exact ((hmem e).1 (hsub e he)).2.2
  · rw [hrows]
    exact hsorted.sublist (List.take_sublist _ _)
  · refine ⟨(sortRecent (heatmapMatching parse from_ to_ store)).drop 2000, ?_, ?_⟩
    · rw [hrows, List.take_append_drop]
      exact hperm
    · intro r hr d hd
      rw [hrows] at hr
      have hsplit := hsorted
      rw [← List.take_append_drop 2000 (sortRecent (heatmapMatching parse from_ to_ store)),
        List.pairwise_append] at hsplit
      exact hsplit.2.2 r hr d hd
  · intro h
    rw [hlen', h]
    rfl
  · rw [hlen (pointStore 2500), hstore]
    rfl

/-- The row cap of `GET /api/events` never exceeds 20000. -/
theorem eventsMax_le (toNumber : String → JSNum) (limit : Option String) :
    JSNum.le (eventsMax toNumber limit) (.fin 20000) = true := by
  have key : ∀ v : JSNum, v.truthy = true →
      JSNum.le (JSNum.min v (.fin 20000)) (.fin 20000) = true := by
    intro v hv
    cases v with
    | nan => simp [JSNum.truthy] at hv
    | negInf => simp [JSNum.min, JSNum.le]
    | posInf => simp [JSNum.min, JSNum.le]
    | fin q =>
      by_cases hq : q ≤ 20000
      · simp [JSNum.min, JSNum.le, hq]
      · simp [JSNum.min, JSNum.le, hq]
  unfold eventsMax
  by_cases h : (match limit with
      | none => JSNum.fin 5000
      | some s => toNumber s).truthy = true
  · simp only [h, if_true]
    exact key _ h
  · simp only [h]
    exact key _ (by simp [JSNum.truthy])

/-- A whole limit of at least 1 is sent as it is, without `singleBatch`. -/
theorem sentLimit_nat (n : Nat) (h : 1 ≤ n) : sentLimit (.fin n) = some (n, false) := by
  have hpos : (0 : ℚ) < (n : ℚ) := by exact_mod_cast h
  simp [sentLimit, hpos]

/-- A whole limit of at least 1 keeps that many leading rows. -/
theorem cursorLimit_nat {α : Type} (batch : Nat) (other : JSNum → Nat) (n : Nat) (h : 1 ≤ n)
    (rows : List α) : cursorLimit batch other (.fin n) rows = rows.take n := by
  simp [cursorLimit, sentLimit_nat n h]

/-- The limit -30000 is sent as `limit: 30000, singleBatch: true`. -/
theorem sentLimit_neg_30000 : sentLimit (.fin (-30000)) = some (30000, true) := by
  have hcast : (-30000 : ℚ) = ((-30000 : ℤ) : ℚ) := by norm_num
  have hfl : ⌊(-30000 : ℚ)⌋ = -30000 := by
    rw [hcast, Int.floor_intCast]
  have hneg : ¬ (0 : ℚ) < -30000 := by norm_num
  have hlt : (-30000 : ℚ) < 0 := by norm_num
  simp only [sentLimit, hfl, hneg, hlt, if_false, if_true]
  norm_num
  rfl

/-- Without a window and without filters the raw-events query matches every
event. -/
theorem eventsQuery_none_matches (parse : String → JSDate) (e : Event) :
    (eventsQuery parse none none none none).matches e = true := by
  rw [eventsQuery_matches, buildTimeMatch_eq]
  simp [truthy, Query.timeOk]

/-- C6, refuted as stated: for `limit=-30000` the value `max` is -30000 (the
clamp bounds it from above only), the driver asks the store for 30000
documents in a single batch, and with a store whose batch holds 30000
documents and 20001 stored events the route answers 20001 rows, more than
20000. -/
theorem events_limit_negative_not_clamped :
    sampleNumber "-30000" = .fin (-30000) ∧
    eventsMax sampleNumber (some "-30000") = .fin (-30000) ∧
    sentLimit (eventsMax sampleNumber (some "-30000")) = some (30000, true) ∧
    (getEvents sampleParse sampleNumber 30000 (fun _ => 0) none none none none
      (some "-30000") (pointStore 20001)).length = 20001 := by
  have hnum : sampleNumber "-30000" = .fin (-30000) := by
    simp [sampleNumber]
  have hmax : eventsMax sampleNumber (some "-30000") = .fin (-30000) := by
    have h1 : (-30000 : ℚ) ≠ 0 := by norm_num
    have h2 : (-30000 : ℚ) ≤ 20000 := by norm_num
    simp only [eventsMax, hnum, JSNum.truthy, h1, ne_eq, not_false_eq_true, decide_True,
      if_true, JSNum.min, h2]
  refine ⟨hnum, hmax, by rw [hmax]; exact sentLimit_neg_30000, ?_⟩
  unfold getEvents
  rw [List.length_map, hmax]
  have hfilter : (pointStore 20001).filter (eventsQuery sampleParse none none none none).matches
      = pointStore 20001 :=
    List.filter_eq_self.2 fun e _ => eventsQuery_none_matches sampleParse e
  rw [hfilter]
  simp only [cursorLimit, sentLimit_neg_30000, List.length_take,
    (sortRecent_spec (pointStore 20001)).1.length_eq]
  simp [pointStore]

/-- C6, amended: the value `max` handed to `.limit` is at most 20000 for
every value of the `limit` parameter; it is 5000 when the parameter is
absent or reads as `NaN` or zero, and 20000 when it reads as a number larger
than 20000 (such as 999999) or as `Infinity`. Whenever `max` is a whole number
of at least 1, the route answers exactly the `max` most recent matching rows
(all of them when there are fewer), hence at most 20000 rows. What the store
does with a negative or fractional `max` is not part of this statement. -/
theorem events_limit_spec (parse : String → JSDate) (toNumber : String → JSNum)
    (batch : Nat) (other : JSNum → Nat)
    (from_ to_ name variant limit : Option String) (store : List Event) :
    JSNum.le (eventsMax toNumber limit) (.fin 20000) = true ∧
    eventsMax toNumber none = .fin 5000 ∧
    (∀ s, (toNumber s).truthy = false → eventsMax toNumber (some s) = .fin 5000) ∧
    (∀ s q, toNumber s = .fin q → 20000 < q → eventsMax toNumber (some s) = .fin 20000) ∧
    (∀ s, toNumber s = .posInf → eventsMax toNumber (some s) = .fin 20000) ∧
    (∀ n : Nat, 1 ≤ n → eventsMax toNumber limit = .fin n →
      n ≤ 20000 ∧
      getEvents parse toNumber batch other from_ to_ name variant limit store =
        ((sortRecent (store.filter (eventsQuery parse from_ to_ name variant).matches)).take
          n).map Event.toRow ∧
      (getEvents parse toNumber batch other from_ to_ name variant limit store).length
        = min n (store.filter (eventsQuery parse from_ to_ name variant).matches).length ∧
      (getEvents parse toNumber batch other from_ to_ name variant limit store).length
        ≤ 20000) ∧
    getEvents parse toNumber batch other from_ to_ name variant none store =
      ((sortRecent (store.filter (eventsQuery parse from_ to_ name variant).matches)).take
        5000).map Event.toRow ∧
    (toNumber "999999" = .fin 999999 →
      getEvents parse toNumber batch other from_ to_ name variant (some "999999") store =
        ((sortRecent (store.filter (eventsQuery parse from_ to_ name variant).matches)).take
          20000).map Event.toRow) := by
  have hle : (5000 : ℚ) ≤ 20000 := by norm_num
  have h5000 : eventsMax toNumber none = .fin 5000 := by
    simp [eventsMax, JSNum.truthy, JSNum.min, hle]
  have hbig : ∀ s q, toNumber s = .fin q → 20000 < q →
      eventsMax toNumber (some s) = .fin 20000 := by
    intro s q hs hq
    have hq0 : q ≠ 0 := by
      intro h0
      rw [h0] at hq
      norm_num at hq
    have hq' : ¬ q ≤ 20000 := not_le.2 hq
    simp [eventsMax, hs, JSNum.truthy, JSNum.min, hq0, hq']
  have hrows : ∀ (l : Option String) (n : Nat), 1 ≤ n → eventsMax toNumber l = .fin n →
      getEvents parse toNumber batch other from_ to_ name variant l store =
        ((sortRecent (store.filter (eventsQuery parse from_ to_ name variant).matches)).take
          n).map Event.toRow := by
    intro l n hn hmax
    unfold getEvents
    rw [hmax, cursorLimit_nat batch other n hn]
  refine ⟨eventsMax_le toNumber limit, h5000, ?_, hbig, ?_, ?_, ?_, ?_⟩
  · intro s hs
    simp [eventsMax, hs, JSNum.min, hle]
  · intro s hs
    simp [eventsMax, hs, JSNum.truthy, JSNum.min]
  · intro n hn hmax
    have hn20 : n ≤ 20000 := by
      have h := eventsMax_le toNumber limit
      rw [hmax] at h
      have h' : (n : ℚ) ≤ 20000 := by simpa [JSNum.le] using h
      exact_mod_cast h'
    have hlen : (getEvents parse toNumber batch other from_ to_ name variant limit store).length
        = min n (store.filter (eventsQuery parse from_ to_ name variant).matches).length := by
      rw [hrows limit n hn hmax, List.length_map, List.length_take,
        (sortRecent_spec _).1.length_eq]
    refine ⟨hn20, hrows limit n hn hmax, hlen, ?_⟩
    rw [hlen]
    exact le_trans (min_le_left _ _) hn20
  · exact hrows none 5000 (by norm_num) (by rw [h5000]; norm_num)
  · intro hs
    exact hrows (some "999999") 20000 (by norm_num)
      (by rw [hbig "999999" 999999 hs (by norm_num)]; norm_num)

/-! ## The clamp of `clickWithPos` -/

/-- The expression `Math.max(0, Math.min(1, v))` lies between 0 and 1 for
every number `v` other than `NaN`. -/
theorem clamp_inUnit (v : JSNum) (hv : v ≠ .nan) :
    (JSNum.max (.fin 0) (JSNum.min (.fin 1) v)).inUnit = true := by
  cases v with
  | nan => exact absurd rfl hv
  | negInf => simp [JSNum.min, JSNum.max, JSNum.inUnit, JSNum.le]
  | posInf => simp [JSNum.min, JSNum.max, JSNum.inUnit, JSNum.le]
  | fin q =>
    by_cases h1 : (1 : ℚ) ≤ q
    · simp [JSNum.min, JSNum.max, JSNum.inUnit, JSNum.le, h1]
    · by_cases h0 : (0 : ℚ) ≤ q
      · have hq1 : q ≤ 1 := le_of_lt (not_le.1 h1)
        simp [JSNum.min, JSNum.max, JSNum.inUnit, JSNum.le, h1, h0, hq1]
      · simp [JSNum.min, JSNum.max, JSNum.inUnit, JSNum.le, h1, h0]

/-- The quotient of two finite numbers is `NaN` only for `0 / 0`. -/
theorem div_eq_nan_iff (a b : Rat) : JSNum.div a b = .nan ↔ (a = 0 ∧ b = 0) := by
  unfold JSNum.div
  by_cases hb : b = 0
  · by_cases ha : a = 0
    · simp [ha, hb]
    · by_cases hpos : 0 < a <;> simp [ha, hb, hpos]
  · simp [hb]

/-- With a container that has a non-zero width, or a pointer that is not on
its left edge, the `x` that `clickWithPos` computes lies between 0 and 1, also
for a pointer outside the container; likewise for `y`. -/
theorem clickWithPos_inUnit (st : ClientState) (rect : Rect) (name meta : String)
    (evt : PointerEvt) (hc : st.containerEl = some rect) :
    ((evt.clientX - rect.left ≠ 0 ∨ rect.width ≠ 0) →
      ∃ v, (clickWithPos st name evt meta).x = some v ∧ v.inUnit = true) ∧
    ((evt.clientY - rect.top ≠ 0 ∨ rect.height ≠ 0) →
      ∃ v, (clickWithPos st name evt meta).y = some v ∧ v.inUnit = true) := by
  constructor
  · intro h
    refine ⟨JSNum.max (.fin 0)
      (JSNum.min (.fin 1) (JSNum.div (evt.clientX - rect.left) rect.width)),
      by simp only [clickWithPos, hc], clamp_inUnit _ ?_⟩
    intro hn
    have := (div_eq_nan_iff _ _).1 hn
    rcases h with h | h
    · exact h this.1
    · exact h this.2
  · intro h
    refine ⟨JSNum.max (.fin 0)
      (JSNum.min (.fin 1) (JSNum.div (evt.clientY - rect.top) rect.height)),
      by simp only [clickWithPos, hc], clamp_inUnit _ ?_⟩
    intro hn
    have := (div_eq_nan_iff _ _).1 hn
    rcases h with h | h
    · exact h this.1
    · exact h this.2

/-- C8, the code at the failing input: with a container whose rectangle is
empty (`left = top = width = height = 0`) and a click at `clientX = clientY =
0`, both quotients are `0 / 0`, the clamp lets `NaN` through, the payload
holds `x = y = NaN`, which is not in the interval from 0 to 1, and `null` is
what is sent for both. -/
theorem clickWithPos_nan_on_empty_rect :
    (clickWithPos
      { sessionId := some "s", variant := "A",
        containerEl := some { left := 0, top := 0, width := 0, height := 0 } }
      "page_click" { clientX := 0, clientY := 0 } "\x7b\x7d").x = some .nan ∧
    (clickWithPos
      { sessionId := some "s", variant := "A",
        containerEl := some { left := 0, top := 0, width := 0, height := 0 } }
      "page_click" { clientX := 0, clientY := 0 } "\x7b\x7d").y = some .nan ∧
    JSNum.inUnit .nan = false ∧
    sentCoord (clickWithPos
      { sessionId := some "s", variant := "A",
        containerEl := some { left := 0, top := 0, width := 0, height := 0 } }
      "page_click" { clientX := 0, clientY := 0 } "\x7b\x7d").x = none := by
  refine ⟨?_, ?_, ?_, ?_⟩ <;>
    simp [clickWithPos, JSNum.div, JSNum.min, JSNum.max, JSNum.inUnit, JSNum.le, sentCoord,
      JSNum.toJSON]

/-! ## The write route -/

/-- C10, refuted as stated: a body whose `sessionId` is present but empty is
answered with status 400, and a body with `sessionId`, `name` and the variant
`C` is answered with status 500 and creates no event. -/
theorem postEvent_400_not_only_absent :
    ((postEvent 0
        { sessionId := some "", variant := some "A", name := some "page_click",
          meta := none, x := none, y := none }
        { events := [], nextId := 0 }).1.status = 400 ∧
      (some "" : Option String) ≠ none ∧ (some "page_click" : Option String) ≠ none) ∧
    ((postEvent 0
        { sessionId := some "s1", variant := some "C", name := some "page_click",
          meta := none, x := none, y := none }
        { events := [], nextId := 0 }).1.status = 500 ∧
      (postEvent 0
        { sessionId := some "s1", variant := some "C", name := some "page_click",
          meta := none, x := none, y := none }
        { events := [], nextId := 0 }).2.events = []) := by
  refine ⟨⟨?_, ?_, ?_⟩, ?_, ?_⟩ <;> decide

/-- C10, amended: `POST /api/event` answers status 400 iff `sessionId` or
`name` is falsy (absent or the empty string), and then the store is unchanged.
When both are truthy and the variant is absent, `A` or `B`, exactly one event
is appended, built from the `sessionId`, `variant` (`A` when absent), `name`,
`meta`, `x` and `y` of the body, and the answer carries its fresh identifier.
When both are truthy and the variant is any other string, the answer is
status 500 and the store is unchanged. -/
theorem postEvent_spec (now : Int) (body : EventBody) (st : Store) :
    ((postEvent now body st).1.status = 400 ↔
      (truthy body.sessionId = false ∨ truthy body.name = false)) ∧
    ((postEvent now body st).1.status = 400 → (postEvent now body st).2 = st) ∧
    (truthy body.sessionId = true → truthy body.name = true →
      (body.variant = none ∨ body.variant = some "A" ∨ body.variant = some "B") →
      ∃ doc : Event,
        (postEvent now body st).2.events = st.events ++ [doc] ∧
        (postEvent now body st).1 = .ok doc.id ∧
        doc.id = st.nextId ∧
        (postEvent now body st).2.nextId = st.nextId + 1 ∧
        some doc.sessionId = body.sessionId ∧
        some doc.name = body.name ∧
        doc.variant = body.variant.getD "A" ∧
        doc.meta = body.meta ∧ doc.x = body.x ∧ doc.y = body.y ∧
        doc.createdAt = now) ∧
    (truthy body.sessionId = true → truthy body.name = true →
      ¬ (body.variant = none ∨ body.variant = some "A" ∨ body.variant = some "B") →
      (postEvent now body st).1.status = 500 ∧ (postEvent now body st).2 = st) := by
  obtain ⟨sid, variant, name, meta, x, y⟩ := body
  refine ⟨?_, ?_, ?_, ?_⟩
  · cases hs : truthy sid <;> cases hn : truthy name
    · simp [postEvent, hs, hn, Response.status]
    · simp [postEvent, hs, hn, Response.status]
    · simp [postEvent, hs, hn, Response.status]
    · simp only [postEvent, hs, hn]
      cases variant with
      | none => simp [createEvent, Response.status]
      | some v =>
        by_cases hv : v = "A" ∨ v = "B"
        · simp [createEvent, hv, Response.status]
        · simp [createEvent, hv, Response.status]
  · cases hs : truthy sid <;> cases hn : truthy name
    · simp [postEvent, hs, hn]
    · simp [postEvent, hs, hn]
    · simp [postEvent, hs, hn]
    · simp only [postEvent, hs, hn]
      cases variant with
      | none => simp [createEvent, Response.status]
      | some v =>
        by_cases hv : v = "A" ∨ v = "B"
        · simp [createEvent, hv, Response.status]
        · simp [createEvent, hv, Response.status]
  · intro hs hn hv
    simp only at hs hn hv
    cases sid with
    | none => simp [truthy] at hs
    | some s =>
      cases name with
      | none => simp [truthy] at hn
      | some nm =>
        rcases hv with rfl | rfl | rfl
        · exact ⟨_, by simp [postEvent, hs, hn, createEvent]; rfl, by
            simp [postEvent, hs, hn, createEvent]⟩
        · exact ⟨_, by simp [postEvent, hs, hn, createEvent]; rfl, by
            simp [postEvent, hs, hn, createEvent]⟩
        · exact ⟨_, by simp [postEvent, hs, hn, createEvent]; rfl, by
            simp [postEvent, hs, hn, createEvent]⟩
  · intro hs hn hv
    simp only at hs hn hv
    cases variant with
    | none => exact absurd (Or.inl rfl) hv
    | some v =>
      have hv' : ¬ (v = "A" ∨ v = "B") := by
        intro h
        rcases h with rfl | rfl
        · exact hv (Or.inr (Or.inl rfl))
        · exact hv (Or.inr (Or.inr rfl))
      simp [postEvent, hs, hn, createEvent, hv', Response.status]

/-! ## The export format -/

/-- The four special characters are distinct. -/
theorem special_chars_ne :
    dquote ≠ comma ∧ dquote ≠ newline ∧ comma ≠ newline ∧
    carriageReturn ≠ dquote ∧ carriageReturn ≠ comma ∧ carriageReturn ≠ newline := by
  decide

/-- A text that needs no quoting holds none of the characters the test of
`esc` looks for. -/
theorem needsQuote_false_iff (s : List Char) :
    needsQuote s = false ↔ ∀ c ∈ s, c ≠ dquote ∧ c ≠ comma ∧ c ≠ newline := by
  simp [needsQuote, not_or, and_assoc]

/-- Inside an unquoted field the reader takes in a run of characters that
holds no comma and no line break. -/
theorem readAux_unquoted_run (s : List Char) :
    ∀ (f : List Char) (r : List String) (rs : List (List String)) (rest : List Char),
      (∀ c ∈ s, c ≠ comma ∧ c ≠ newline ∧ c ≠ carriageReturn) →
      readAux .unquoted f r rs (s ++ rest) = readAux .unquoted (f ++ s) r rs rest := by
  induction s with
  | nil => intro f r rs rest _; simp
  | cons c cs ih =>
    intro f r rs rest h
    have hc := h c (List.mem_cons_self c cs)
    have hcs : ∀ d ∈ cs, d ≠ comma ∧ d ≠ newline ∧ d ≠ carriageReturn :=
      fun d hd => h d (List.mem_cons_of_mem c hd)
    rw [List.cons_append, readAux, if_neg hc.1, if_neg hc.2.1, if_neg hc.2.2, ih _ _ _ _ hcs]
    simp

/-- Inside a quoted field the reader takes in the doubled text up to the
closing quote and holds the original text, line breaks included. -/
theorem readAux_quoted_run (s : List Char) :
    ∀ (f : List Char) (r : List String) (rs : List (List String)) (rest : List Char),
      readAux .quoted f r rs (doubleQuotes s ++ dquote :: rest)
        = readAux .quoteSeen (f ++ s) r rs rest := by
  induction s with
  | nil =>
    intro f r rs rest
    simp [doubleQuotes, readAux]
  | cons c cs ih =>
    intro f r rs rest
    by_cases hc : c = dquote
    · subst hc
      simp only [doubleQuotes, if_true, List.cons_append]
      rw [readAux, if_pos rfl, readAux, if_pos rfl, ih]
      simp
    · simp only [doubleQuotes, hc, if_false, List.cons_append]
      rw [readAux, if_neg hc, ih]
      simp

/-- At the end of the text the reader closes the field and the record. -/
theorem readAux_end (st : ReadState) (f : List Char) (r : List String)
    (rs : List (List String)) :
    readAux st f r rs [] = rs ++ [r ++ [String.mk f]] := by
  cases st <;> simp [readAux]

/-- Inside or at the start of a field, or after a closing quote, a comma
closes the field. -/
theorem readAux_comma (st : ReadState) (hst : st ≠ .quoted) (hcr : st ≠ .afterCR)
    (f : List Char) (r : List String) (rs : List (List String)) (more : List Char) :
    readAux st f r rs (comma :: more) = readAux .fieldStart [] (r ++ [String.mk f]) rs more := by
  have h1 : comma ≠ dquote := fun h => special_chars_ne.1 h.symm
  cases st with
  | fieldStart => rw [readAux, if_neg h1, if_pos rfl]
  | unquoted => rw [readAux, if_pos rfl]
  | quoted => exact absurd rfl hst
  | quoteSeen => rw [readAux, if_neg h1, if_pos rfl]
  | afterCR => exact absurd rfl hcr

/-- The reader on an escaped text that is not an unquoted text with a
carriage return: from the start of a field it takes in the whole escaped
text, holds the original text as the current field, and is at the start of a
field, inside an unquoted field or after a closing quote. -/
theorem readAux_escText (s : List Char) (hs : bareCR s = false) (r : List String)
    (rs : List (List String)) :
    ∃ st : ReadState, st ≠ .quoted ∧ st ≠ .afterCR ∧
      ∀ rest, readAux .fieldStart [] r rs (escText s ++ rest) = readAux st s r rs rest := by
  by_cases hq : needsQuote s = true
  · refine ⟨.quoteSeen, by decide, by decide, fun rest => ?_⟩
    simp only [escText, hq, if_true, List.cons_append, List.append_assoc, List.singleton_append]
    rw [readAux, if_pos rfl, readAux_quoted_run]
    simp
  · have hq' : needsQuote s = false := by simpa using hq
    have hsp := (needsQuote_false_iff s).1 hq'
    have hcr : ∀ c ∈ s, c ≠ carriageReturn := by
      simpa [bareCR, hq'] using hs
    cases s with
    | nil => exact ⟨.fieldStart, by decide, by decide, fun rest => by simp [escText, needsQuote]⟩
    | cons c cs =>
      refine ⟨.unquoted, by decide, by decide, fun rest => ?_⟩
      have hc := hsp c (List.mem_cons_self c cs)
      have hcc := hcr c (List.mem_cons_self c cs)
      have hcs : ∀ d ∈ cs, d ≠ comma ∧ d ≠ newline ∧ d ≠ carriageReturn :=
        fun d hd => ⟨(hsp d (List.mem_cons_of_mem c hd)).2.1,
          (hsp d (List.mem_cons_of_mem c hd)).2.2, hcr d (List.mem_cons_of_mem c hd)⟩
      simp only [escText, hq', Bool.false_eq_true, if_false, List.cons_append]
      rw [readAux, if_neg hc.1, if_neg hc.2.1, if_neg hc.2.2, if_neg hcc,
        readAux_unquoted_run cs _ _ _ _ hcs]
      simp

/-- The text of a joined row: the first cell, a comma, the rest. -/
theorem joinWith_cons_cons (sep : Char) (a b : String) (rest : List String) :
    (joinWith sep (a :: b :: rest)).data = a.data ++ sep :: (joinWith sep (b :: rest)).data :=
  rfl

/-- The reader on a row of escaped cells joined by commas gives back the
cells, appended to the fields already read, when no cell is an unquoted text
with a carriage return. -/
theorem readAux_row (a : String) (cells : List String) :
    ∀ (r : List String) (rs : List (List String)),
      (∀ s ∈ a :: cells, bareCR s.data = false) →
      readAux .fieldStart [] r rs
          (joinWith comma ((a :: cells).map fun s => esc (.value s))).data
        = rs ++ [r ++ a :: cells] := by
  induction cells generalizing a with
  | nil =>
    intro r rs hsafe
    obtain ⟨st, _, _, h⟩ := readAux_escText a.data (hsafe a (List.mem_cons_self _ _)) r rs
    have h' := h []
    rw [List.append_nil] at h'
    simp only [List.map_cons, List.map_nil, joinWith, esc]
    rw [h', readAux_end]
  | cons b rest ih =>
    intro r rs hsafe
    obtain ⟨st, hst, hcr, h⟩ :=
      readAux_escText a.data (hsafe a (List.mem_cons_self _ _)) r rs
    simp only [List.map_cons]
    rw [joinWith_cons_cons]
    have h' := h (comma :: (joinWith comma
      (esc (.value b) :: rest.map fun s => esc (.value s))).data)
    simp only [esc] at h' ⊢
    rw [h', readAux_comma st hst hcr]
    have ih' := ih b (r ++ [a]) rs fun s hs => hsafe s (List.mem_cons_of_mem _ hs)
    simp only [List.map_cons, esc] at ih'
    rw [ih']
    simp

/-- C9, refuted as stated: the value `a`, carriage return, `b` holds no comma,
double quote or line feed, so `esc` writes it unchanged and without quotes,
and the reader takes the carriage return for a line break: it reads two
records, `a` and `b`, not the original value; likewise a value that ends in a
carriage return is read back without it, followed by an empty record. -/
theorem csv_bare_carriage_return_not_round_trip :
    esc (.value "a\rb") = "a\rb" ∧
    readCSV (esc (.value "a\rb")) = [["a"], ["b"]] ∧
    readCSV (esc (.value "a\rb")) ≠ [["a\rb"]] ∧
    readCSV (esc (.value "hi\r")) = [["hi"], [""]] := by
  refine ⟨?_, ?_, ?_, ?_⟩ <;> decide

/-- C9, amended: for every string value that holds no carriage return, or
holds one together with a comma, a double quote or a line feed (so that it is
written in quotes), the text `esc` produces for it (wrapped in double quotes
with every embedded double quote doubled when the value holds a comma, a
double quote or a line feed, unchanged otherwise) is read back by a standard
comma-separated reader as one record of one field, the original value; the
same holds for the text of an object cell; and a row of at least one such
cell, joined by commas, is read back as one record holding the same values,
as many and in the same order. -/
theorem csv_round_trip (v : String) (row : List String)
    (hv : bareCR v.data = false) (hrow : row ≠ [])
    (hcells : ∀ s ∈ row, bareCR s.data = false) :
    readCSV (esc (.value v)) = [[v]] ∧
    readCSV (esc (.object v)) = [[v]] ∧
    (esc (.value v)).data =
      (if v.data.any (fun c => c = dquote || c = comma || c = newline) then
        dquote :: (doubleQuotes v.data ++ [dquote])
      else v.data) ∧
    readCSV (joinWith comma (row.map fun s => esc (.value s))) = [row] ∧
    (∀ rec ∈ readCSV (joinWith comma (row.map fun s => esc (.value s))),
      rec.length = row.length) := by
  have hfield : readAux .fieldStart [] [] [] (escText v.data) = [[v]] := by
    obtain ⟨st, _, _, h⟩ := readAux_escText v.data hv [] []
    have h' := h []
    rw [List.append_nil] at h'
    rw [h', readAux_end]
    rfl
  have hr : readCSV (joinWith comma (row.map fun s => esc (.value s))) = [row] := by
    cases row with
    | nil => exact absurd rfl hrow
    | cons a cells =>
      unfold readCSV
      rw [readAux_row a cells [] [] hcells]
      rfl
  refine ⟨hfield, hfield, rfl, hr, ?_⟩
  intro rec hrec
  rw [hr, List.mem_singleton] at hrec
  rw [hrec]

/-- C9, amended, at a concrete input: a value holding a comma, a double quote,
a carriage return and a line feed, and a row of three cells, one of them
empty. -/
theorem csv_round_trip_witness :
    bareCR "x,\"y\"\r\nz".data = false ∧
    ["a,b", "", "say \"hi\""] ≠ [] ∧
    (∀ s ∈ ["a,b", "", "say \"hi\""], bareCR s.data = false) ∧
    readCSV (esc (.value "x,\"y\"\r\nz")) = [["x,\"y\"\r\nz"]] ∧
    readCSV (joinWith comma (["a,b", "", "say \"hi\""].map fun s => esc (.value s)))
      = [["a,b", "", "say \"hi\""]] :=
  ⟨by decide, by decide, by decide,
    (csv_round_trip "x,\"y\"\r\nz" ["a,b", "", "say \"hi\""]
      (by decide) (by decide) (by decide)).1,
    (csv_round_trip "x,\"y\"\r\nz" ["a,b", "", "say \"hi\""]
      (by decide) (by decide) (by decide)).2.2.2.1⟩

/-! ## Identity assignment -/

/-- A hyphen of the template survives the replacement of `uuid`. -/
theorem hyphen_mem_uuidChars (rand : Nat → Nat) (cs : List Char) :
    ∀ i : Nat, '-' ∈ cs → '-' ∈ uuidChars rand i cs := by
  induction cs with
  | nil => intro i h; exact absurd h (List.not_mem_nil _)
  | cons c rest ih =>
    intro i h
    by_cases hc : c = '0' ∨ c = '1' ∨ c = '8'
    · have hne : '-' ≠ c := by
        rcases hc with rfl | rfl | rfl <;> decide
      have hrest : '-' ∈ rest := by
        rcases List.mem_cons.1 h with h | h
        · exact absurd h hne
        · exact h
      simp only [uuidChars, hc, if_true]
      exact List.mem_append_right _ (ih (i + 1) hrest)
    · simp only [uuidChars, hc, if_false]
      rcases List.mem_cons.1 h with h | h
      · exact h ▸ List.mem_cons_self _ _
      · exact List.mem_cons_of_mem _ (ih i h)

/-- The identifier `uuid()` produces is never the empty string, so it is
truthy. -/
theorem truthy_uuid (rand : Nat → Nat) : truthy (some (uuid rand)) = true := by
  rw [truthy_some]
  intro h
  have hmem : '-' ∈ (uuid rand).data :=
    hyphen_mem_uuidChars rand uuidTemplate.data 0 (by decide)
  rw [h] at hmem
  exact absurd hmem (by decide)

/-- A truthy stored value is a stored string. -/
theorem some_getD_of_truthy (v : Option String) (h : truthy v = true) : some (v.getD "") = v := by
  cases v with
  | none => simp [truthy] at h
  | some s => rfl

/-- The session identifier in storage after a call: the stored one when it is
truthy, a fresh `uuid()` otherwise. -/
theorem initAnalytics_sessionId (inp : InitInput) (c : Client) :
    (initAnalytics inp c).storage.sessionId =
      if truthy c.storage.sessionId then c.storage.sessionId else some (uuid inp.rand) := by
  unfold initAnalytics
  cases hs : truthy c.storage.sessionId <;> cases hv : truthy c.storage.abVariant <;> simp [hs, hv]

/-- The variant in storage after a call: the stored one when it is truthy,
otherwise `A` or `B` by the value of `Math.random()`. -/
theorem initAnalytics_abVariant (inp : InitInput) (c : Client) :
    (initAnalytics inp c).storage.abVariant =
      if truthy c.storage.abVariant then c.storage.abVariant
      else some (if inp.random < 1 / 2 then "A" else "B") := by
  unfold initAnalytics
  cases hs : truthy c.storage.sessionId <;> cases hv : truthy c.storage.abVariant <;> simp [hs, hv]

/-- The module state after a call holds the stored identity and the container
found. -/
theorem initAnalytics_state (inp : InitInput) (c : Client) :
    (initAnalytics inp c).state.sessionId = (initAnalytics inp c).storage.sessionId ∧
    some (initAnalytics inp c).state.variant = (initAnalytics inp c).storage.abVariant ∧
    (initAnalytics inp c).state.containerEl = inp.container := by
  rw [initAnalytics_sessionId, initAnalytics_abVariant]
  unfold initAnalytics
  cases hs : truthy c.storage.sessionId <;> cases hv : truthy c.storage.abVariant <;>
    simp [hs, hv, some_getD_of_truthy]

/-- Both stored values are truthy after a call. -/
theorem initAnalytics_truthy (inp : InitInput) (c : Client) :
    truthy (initAnalytics inp c).storage.sessionId = true ∧
    truthy (initAnalytics inp c).storage.abVariant = true := by
  rw [initAnalytics_sessionId, initAnalytics_abVariant]
  constructor
  · cases hs : truthy c.storage.sessionId
    · simpa using truthy_uuid inp.rand
    · simpa using hs
  · cases hv : truthy c.storage.abVariant
    · by_cases hr : inp.random < 1 / 2
      · simp only [Bool.false_eq_true, if_false, hr, if_true]
        decide
      · simp only [Bool.false_eq_true, if_false, hr]
        decide
    · simpa using hv

/-- A call on a storage that holds a truthy identifier and a truthy variant
leaves the storage as it is. -/
theorem initAnalytics_storage_fixed (inp : InitInput) (c : Client)
    (hs : truthy c.storage.sessionId = true) (hv : truthy c.storage.abVariant = true) :
    (initAnalytics inp c).storage = c.storage := by
  unfold initAnalytics
  simp [hs, hv]

/-- Any number of calls on a storage that holds a truthy identifier and a
truthy variant leaves the storage as it is. -/
theorem runInits_storage_fixed (inps : List InitInput) :
    ∀ c : Client, truthy c.storage.sessionId = true → truthy c.storage.abVariant = true →
      (runInits inps c).storage = c.storage := by
  induction inps with
  | nil => intro c _ _; rfl
  | cons inp rest ih =>
    intro c hs hv
    have hfix := initAnalytics_storage_fixed inp c hs hv
    have h := ih (initAnalytics inp c) (by rw [hfix]; exact hs) (by rw [hfix]; exact hv)
    simp only [runInits, List.foldl_cons] at h ⊢
    rw [h, hfix]

/-- After any number of calls on a storage that holds a truthy identity, the
module state holds the stored identity, provided it held it before. -/
theorem runInits_state (inps : List InitInput) :
    ∀ c : Client, truthy c.storage.sessionId = true → truthy c.storage.abVariant = true →
      c.state.sessionId = c.storage.sessionId → some c.state.variant = c.storage.abVariant →
      (runInits inps c).state.sessionId = c.storage.sessionId ∧
      some (runInits inps c).state.variant = c.storage.abVariant := by
  induction inps with
  | nil => intro c _ _ h1 h2; exact ⟨h1, h2⟩
  | cons inp rest ih =>
    intro c hs hv _ _
    have hfix := initAnalytics_storage_fixed inp c hs hv
    have hst := initAnalytics_state inp c
    have h := ih (initAnalytics inp c) (by rw [hfix]; exact hs) (by rw [hfix]; exact hv)
      hst.1 hst.2.1
    simp only [runInits, List.foldl_cons] at h ⊢
    rw [hfix] at h
    exact h

/-- C11, refuted as stated: on a storage that already holds the variant `C`,
one call of `initAnalytics` keeps `C` as the stored and the in-memory variant,
which is neither `A` nor `B`. -/
theorem initAnalytics_keeps_foreign_variant :
    (initAnalytics sampleInput
      { storage := { sessionId := none, abVariant := some "C" },
        state := initialState, sent := [] }).storage.abVariant = some "C" ∧
    (initAnalytics sampleInput
      { storage := { sessionId := none, abVariant := some "C" },
        state := initialState, sent := [] }).state.variant = "C" ∧
    (some "C" : Option String) ≠ some "A" ∧ (some "C" : Option String) ≠ some "B" := by
  refine ⟨?_, ?_, by decide, by decide⟩
  · rw [initAnalytics_abVariant]
    decide
  · have h := (initAnalytics_state sampleInput
      { storage := { sessionId := none, abVariant := some "C" },
        state := initialState, sent := [] }).2.1
    rw [initAnalytics_abVariant] at h
    exact Option.some.inj h

/-- C11, amended: for every state of client storage, after one call of
`initAnalytics` the storage holds a non-empty session identifier and a
non-empty variant; the variant is `A` or `B` exactly when the storage held no
variant, an empty one, `A` or `B` before the call (any other stored variant
is kept as it is); and every later sequence of calls leaves both stored
values unchanged and sets the in-memory session identifier and variant to
those stored values. -/
theorem initAnalytics_identity_idempotent (inp : InitInput) (later : List InitInput)
    (c : Client) :
    truthy (initAnalytics inp c).storage.sessionId = true ∧
    truthy (initAnalytics inp c).storage.abVariant = true ∧
    (((initAnalytics inp c).storage.abVariant = some "A" ∨
        (initAnalytics inp c).storage.abVariant = some "B") ↔
      (truthy c.storage.abVariant = false ∨ c.storage.abVariant = some "A" ∨
        c.storage.abVariant = some "B")) ∧
    (initAnalytics inp c).state.sessionId = (initAnalytics inp c).storage.sessionId ∧
    some (initAnalytics inp c).state.variant = (initAnalytics inp c).storage.abVariant ∧
    (runInits later (initAnalytics inp c)).storage = (initAnalytics inp c).storage ∧
    (runInits later (initAnalytics inp c)).state.sessionId
      = (initAnalytics inp c).storage.sessionId ∧
    some (runInits later (initAnalytics inp c)).state.variant
      = (initAnalytics inp c).storage.abVariant := by
  have ht := initAnalytics_truthy inp c
  have hst := initAnalytics_state inp c
  have hrun := runInits_state later (initAnalytics inp c) ht.1 ht.2 hst.1 hst.2.1
  refine ⟨ht.1, ht.2, ?_, hst.1, hst.2.1,
    runInits_storage_fixed later _ ht.1 ht.2, hrun.1, hrun.2⟩
  rw [initAnalytics_abVariant]
  cases hv : truthy c.storage.abVariant
  · simp only [Bool.false_eq_true, if_false]
    refine ⟨fun _ => Or.inl trivial, fun _ => ?_⟩
    by_cases hr : inp.random < 1 / 2
    · rw [if_pos hr]
      exact Or.inl rfl
    · rw [if_neg hr]
      exact Or.inr rfl
  · simp

/-! ## The `session_started` event -/

/-- A call of `initAnalytics` posts one event, `session_started`, carrying
the stored identity. -/
theorem initAnalytics_sent (inp : InitInput) (c : Client) :
    (initAnalytics inp c).sent = c.sent ++
      [{ sessionId := (initAnalytics inp c).storage.sessionId,
         variant := (initAnalytics inp c).storage.abVariant.getD "",
         name := "session_started", meta := "\x7b\x7d", x := none, y := none }] := by
  rw [initAnalytics_sessionId, initAnalytics_abVariant]
  unfold initAnalytics
  cases hs : truthy c.storage.sessionId <;> cases hv : truthy c.storage.abVariant <;>
    simp [hs, hv, track, some_getD_of_truthy]

/-- A sequence of calls posts one `session_started` event per call. -/
theorem runInits_sent (inps : List InitInput) :
    ∀ c : Client, ∃ new : List EventPayload,
      (runInits inps c).sent = c.sent ++ new ∧ new.length = inps.length ∧
      ∀ p ∈ new, p.name = "session_started" := by
  induction inps with
  | nil => intro c; exact ⟨[], by simp [runInits], rfl, by simp⟩
  | cons inp rest ih =>
    intro c
    obtain ⟨new, h1, h2, h3⟩ := ih (initAnalytics inp c)
    rw [initAnalytics_sent] at h1
    refine ⟨{ sessionId := (initAnalytics inp c).storage.sessionId,
              variant := (initAnalytics inp c).storage.abVariant.getD "",
              name := "session_started", meta := "\x7b\x7d", x := none, y := none } :: new,
      ?_, by simp [h2], ?_⟩
    · simp only [runInits, List.foldl_cons] at h1 ⊢
      rw [h1]
      simp
    · intro p hp
      rcases List.mem_cons.1 hp with rfl | hp
      · rfl
      · exact h3 p hp

/-- C12, refuted as stated: two calls of `initAnalytics` in a fresh client
context post two `session_started` events; the second call finds the identity
the first one stored, leaves the storage unchanged, and posts an event all
the same. -/
theorem session_started_posted_twice :
    (runInits [sampleInput, sampleInput] freshClient).sent.map (fun p => p.name)
      = ["session_started", "session_started"] ∧
    truthy (initAnalytics sampleInput freshClient).storage.sessionId = true ∧
    truthy (initAnalytics sampleInput freshClient).storage.abVariant = true ∧
    (initAnalytics sampleInput (initAnalytics sampleInput freshClient)).storage
      = (initAnalytics sampleInput freshClient).storage ∧
    (initAnalytics sampleInput (initAnalytics sampleInput freshClient)).sent.length
      = (initAnalytics sampleInput freshClient).sent.length + 1 := by
  have ht := initAnalytics_truthy sampleInput freshClient
  refine ⟨?_, ht.1, ht.2, initAnalytics_storage_fixed _ _ ht.1 ht.2, ?_⟩
  · simp only [runInits, List.foldl_cons, List.foldl_nil]
    rw [initAnalytics_sent, initAnalytics_sent]
    simp [freshClient]
  · rw [initAnalytics_sent]
    simp

/-- C12, amended: every call of `initAnalytics` posts exactly one
`session_started` event, carrying the session identifier and the variant that
the storage holds after the call, whether the call generated the identity or
found it persisted; so a sequence of `n` calls in one client context posts
`n` `session_started` events, one for the call that assigns the identity and
one more for every later call. -/
theorem session_started_on_every_call (inp : InitInput) (inps : List InitInput) (c : Client) :
    (initAnalytics inp c).sent = c.sent ++
      [{ sessionId := (initAnalytics inp c).storage.sessionId,
         variant := (initAnalytics inp c).storage.abVariant.getD "",
         name := "session_started", meta := "\x7b\x7d", x := none, y := none }] ∧
    (runInits inps c).sent.length = c.sent.length + inps.length ∧
    (∃ new : List EventPayload,
      (runInits inps c).sent = c.sent ++ new ∧ new.length = inps.length ∧
      ∀ p ∈ new, p.name = "session_started") := by
  refine ⟨initAnalytics_sent inp c, ?_, runInits_sent inps c⟩
  obtain ⟨new, h1, h2, _⟩ := runInits_sent inps c
  rw [h1, List.length_append, h2]

/-! ## The conversion rate -/

/-- The binary digits of a positive number: `x` lies below `2 ^ bitLength`
and is at least half of it. -/
theorem bitLength_spec (fuel : Nat) :
    ∀ x : Nat, x ≠ 0 → x ≤ fuel →
      x < 2 ^ bitLength fuel x ∧ 2 ^ bitLength fuel x ≤ 2 * x := by
  induction fuel with
  | zero => intro x hx hle; omega
  | succ fuel ih =>
    intro x hx hle
    simp only [bitLength, hx, if_false]
    by_cases h2 : x / 2 = 0
    · have hx1 : x = 1 := by omega
      have hb : bitLength fuel (x / 2) = 0 := by
        rw [h2]
        cases fuel <;> simp [bitLength]
      rw [hb, hx1]
      norm_num
    · have hle' : x / 2 ≤ fuel := by omega
      obtain ⟨h1, h3⟩ := ih (x / 2) h2 hle'
      rw [pow_succ]
      constructor <;> omega

/-- The double nearest to a positive quotient is not zero. -/
theorem roundDouble_m_ne_zero (n d : Nat) (hn : n ≠ 0) (hd : d ≠ 0) :
    (roundDouble n d).m ≠ 0 := by
  obtain ⟨hn1, hn2⟩ := bitLength_spec n n hn le_rfl
  obtain ⟨hd1, hd2⟩ := bitLength_spec d d hd le_rfl
  have key : ∀ e : Int, e ≤ (bitLength n n : Int) - (bitLength d d : Int) - 52 →
      d * 2 ^ e.toNat ≤ n * 2 ^ (-e).toNat := by
    intro e he
    have h1 : d * 2 ^ e.toNat ≤ 2 ^ bitLength d d * 2 ^ e.toNat :=
      Nat.mul_le_mul_right _ (le_of_lt hd1)
    have h2 : 2 ^ bitLength n n * 2 ^ (-e).toNat ≤ 2 * n * 2 ^ (-e).toNat :=
      Nat.mul_le_mul_right _ hn2
    have h3 : 2 * (2 ^ bitLength d d * 2 ^ e.toNat) ≤ 2 ^ bitLength n n * 2 ^ (-e).toNat := by
      rw [← pow_add, ← pow_add, ← pow_succ']
      exact Nat.pow_le_pow_right (by norm_num) (by omega)
    have h4 : 2 * (d * 2 ^ e.toNat) ≤ 2 * (n * 2 ^ (-e).toNat) := by
      calc 2 * (d * 2 ^ e.toNat) ≤ 2 * (2 ^ bitLength d d * 2 ^ e.toNat) :=
            Nat.mul_le_mul_left _ h1
        _ ≤ 2 ^ bitLength n n * 2 ^ (-e).toNat := h3
        _ ≤ 2 * n * 2 ^ (-e).toNat := h2
        _ = 2 * (n * 2 ^ (-e).toNat) := by ring
    omega
  have hq : ∀ e : Int, e ≤ (bitLength n n : Int) - (bitLength d d : Int) - 52 →
      0 < n * 2 ^ (-e).toNat / (d * 2 ^ e.toNat) := by
    intro e he
    have hpos : 0 < d * 2 ^ e.toNat :=
      Nat.mul_pos (Nat.pos_of_ne_zero hd) (by positivity)
    exact Nat.div_pos (key e he) hpos
  simp only [roundDouble, hn, if_false]
  split_ifs with h1 h2 h3
  · exact Nat.succ_ne_zero _
  · exact Nat.pos_iff_ne_zero.1
      (hq ((bitLength n n : Int) - (bitLength d d : Int) - 52 - 1) (by omega))
  · exact Nat.succ_ne_zero _
  · exact Nat.pos_iff_ne_zero.1
      (hq ((bitLength n n : Int) - (bitLength d d : Int) - 52) le_rfl)

/-- The double that holds the count zero is zero. -/
theorem ofNat_zero : JSDouble.ofNat 0 = .fin { m := 0, e := 0 } := rfl

/-- The double that holds a count is truthy exactly when the count is not
zero. -/
theorem ofNat_truthy (n : Nat) : (JSDouble.ofNat n).truthy = decide (n ≠ 0) := by
  by_cases h : n = 0
  · subst h
    rfl
  · have := roundDouble_m_ne_zero n 1 h (by norm_num)
    simp [JSDouble.ofNat, JSDouble.truthy, this, h]

/-- The conversion rate in closed form: zero without sessions, otherwise the
quotient rounded to a double, times 100, rounded to a double again. -/
theorem conversionRate_eq (sessions conversions : Nat) :
    conversionRate sessions conversions =
      if sessions = 0 then .fin { m := 0, e := 0 }
      else .fin (Dyadic.mul
        (Dyadic.div (roundDouble conversions 1) (roundDouble sessions 1))
        (roundDouble 100 1)) := by
  unfold conversionRate
  rw [ofNat_truthy]
  by_cases h : sessions = 0
  · simp [h, ofNat_zero]
  · have hm := roundDouble_m_ne_zero sessions 1 h (by norm_num)
    simp [h, JSDouble.ofNat, JSDouble.div, JSDouble.mul, hm]

set_option maxRecDepth 100000 in
/-- The doubles the code computes for four pairs of counts. -/
theorem conversionRate_values :
    conversionRate 10 4 = .fin { m := 5629499534213120, e := -47 } ∧
    conversionRate 6 3 = .fin { m := 7036874417766400, e := -47 } ∧
    conversionRate 100 7 = .fin { m := 7881299347898369, e := -50 } ∧
    conversionRate 100 57 = .fin { m := 8022036836253695, e := -47 } := by
  refine ⟨?_, ?_, ?_, ?_⟩ <;> decide

/-- C13, refuted as stated: for 7 conversions in 100 sessions the exact
value of `conversions / sessions × 100` is 7, and the rate the code computes
is the double above it, `7 + 2 ^ -50` (printed 7.000000000000001); for 57
conversions in 100 sessions it is the double below 57 (printed
56.99999999999999). -/
theorem conversionRate_not_exact :
    ((7 : ℚ) / 100 * 100 = 7) ∧
    (conversionRate 100 7).value = some (7 + 1 / 2 ^ 50) ∧
    (conversionRate 100 7).value ≠ some 7 ∧
    (conversionRate 100 57).value = some (57 - 1 / 2 ^ 47) ∧
    (conversionRate 100 57).value ≠ some 57 := by
  rw [conversionRate_values.2.2.1, conversionRate_values.2.2.2]
  simp only [JSDouble.value, Dyadic.toRat, ne_eq, Option.some.injEq]
  refine ⟨?_, ?_, ?_, ?_, ?_⟩ <;> norm_num

/-- C13, amended: for every pair of non-negative integers
`(sessions, conversions)` the derived conversion rate is 0 when
`sessions = 0`, whatever `conversions` is, the guard and not a division
giving it (the unguarded expression over zero sessions is `NaN` or
`Infinity`); otherwise it is the double that `(conversions / sessions) * 100`
computes, the quotient rounded to the nearest double and its product with
100 rounded again, a finite number that need not be the exact value of
`conversions / sessions × 100`; for `(10, 4)` it is exactly 40 and for
`(6, 3)` exactly 50, which are the rates the dashboard derives for the
variants A and B from the views of scenario A. -/
theorem conversionRate_spec (parse : String → JSDate) (sessions conversions : Nat) :
    conversionRate sessions conversions =
      (if sessions = 0 then .fin { m := 0, e := 0 }
       else .fin (Dyadic.mul
        (Dyadic.div (roundDouble conversions 1) (roundDouble sessions 1))
        (roundDouble 100 1))) ∧
    conversionRate 0 conversions = .fin { m := 0, e := 0 } ∧
    (conversionRate 0 conversions).value = some 0 ∧
    (JSDouble.mul (JSDouble.div (JSDouble.ofNat conversions) (JSDouble.ofNat 0))
      (JSDouble.ofNat 100)).value = none ∧
    (conversionRate 10 4).value = some 40 ∧
    (conversionRate 6 3).value = some 50 ∧
    (aRate none).value = some 0 ∧ (bRate none).value = some 0 ∧
    (aRate (some { eventsByName := eventsByName parse none none none scenarioA,
                   sessionsByVariant := sessionsByVariant parse none none scenarioA,
                   conversionsByVariant := conversionsByVariant parse none none scenarioA })).value
      = some 40 ∧
    (bRate (some { eventsByName := eventsByName parse none none none scenarioA,
                   sessionsByVariant := sessionsByVariant parse none none scenarioA,
                   conversionsByVariant := conversionsByVariant parse none none scenarioA })).value
      = some 50 := by
  have h0 : ∀ n, conversionRate 0 n = .fin { m := 0, e := 0 } := by
    intro n
    rw [conversionRate_eq]
    rfl
  have hv0 : ∀ n, (conversionRate 0 n).value = some 0 := by
    intro n
    rw [h0]
    simp [JSDouble.value, Dyadic.toRat]
  have h40 : (conversionRate 10 4).value = some 40 := by
    rw [conversionRate_values.1]
    simp only [JSDouble.value, Dyadic.toRat, Option.some.injEq]
    norm_num
  have h50 : (conversionRate 6 3).value = some 50 := by
    rw [conversionRate_values.2.1]
    simp only [JSDouble.value, Dyadic.toRat, Option.some.injEq]
    norm_num
  have hs : sessionsByVariant parse none none scenarioA = [("A", 10), ("B", 6)] := rfl
  have hc : conversionsByVariant parse none none scenarioA = [("A", 4), ("B", 3)] := rfl
  have hA10 : variantCount [("A", 10), ("B", 6)] "A" = 10 := by decide
  have hA4 : variantCount [("A", 4), ("B", 3)] "A" = 4 := by decide
  have hB6 : variantCount [("A", 10), ("B", 6)] "B" = 6 := by decide
  have hB3 : variantCount [("A", 4), ("B", 3)] "B" = 3 := by decide
  have h100 : (roundDouble 100 1).m ≠ 0 := roundDouble_m_ne_zero 100 1 (by norm_num) (by norm_num)
  refine ⟨conversionRate_eq sessions conversions, h0 conversions, hv0 conversions, ?_,
    h40, h50, hv0 0, hv0 0, ?_, ?_⟩
  · rw [ofNat_zero]
    by_cases hz : (roundDouble conversions 1).m = 0
    · simp [JSDouble.ofNat, JSDouble.div, JSDouble.mul, JSDouble.value, hz]
    · simp [JSDouble.ofNat, JSDouble.div, JSDouble.mul, JSDouble.value, hz, h100]
  · simp only [aRate, hs, hc, hA10, hA4]
    exact h40
  · simp only [bRate, hs, hc, hB6, hB3]
    exact h50

end AnalyticsDashboard
